import Mathlib

/-!
Verification development for the live-caption translation pipeline.

The development shallowly embeds two modules of the repository:

* the translation service (file `src/unnamed/part_000`): per-speaker
  rate limiting, caching, in-flight deduplication and loop detection
  around an external translation call (`translateText`,
  `detectAndBreakTranslationLoop`, `hasTimePassedForTranslation`,
  `resetLoopDetection`);
* the subtitle processor (`src/src/subtitle-processor.js`): continuation
  classification inside `processSubtitles`, the per-speaker utterance
  history (`updateTranslatedUtterancesMap`, `validateUtterancesMap`) and
  finalization (`finalizeSpeech`).

Conventions of the embedding:

* JavaScript dictionaries keyed by speaker id become total functions
  `String → Option _` (absent key = `none`); deleting a key stores `none`.
* `Date.now()` becomes an explicit `now : Nat` parameter supplied by the
  caller; a single synchronous segment reads one timestamp.
* The awaited external fetch becomes an explicit `fetchOutcome : Option
  String` parameter: `some t` is the trimmed message content of a
  successful, well-formed response, `none` is any failure (timeout,
  transport error, non-2xx status, malformed payload, empty content).
  The `await` is one atomic resumption: the returned state is the state
  observed after the continuation ran.
* JavaScript truthiness of a possibly-absent string is `optTruthy`
  (present and non-empty).
* Strings are treated as their character lists; `text.substring`,
  `includes` and `split(' ')` are modelled character-wise.
-/

/-! ## Configuration (src/src/config.js) -/

namespace Config

/-- Config.SUBTITLE_PROCESSING_INTERVAL (ms). -/
def SUBTITLE_PROCESSING_INTERVAL : Nat := 2000

/-- Config.API_RATE_LIMIT (ms). -/
def API_RATE_LIMIT : Nat := 500

/-- Config.MAX_STORED_UTTERANCES. -/
def MAX_STORED_UTTERANCES : Nat := 10

/-- Config.MAX_SPEECH_SEGMENT_LENGTH. -/
def MAX_SPEECH_SEGMENT_LENGTH : Nat := 3000

end Config

/-- MAX_REPEAT_COUNT from src/unnamed/part_000 line 17. -/
def MAX_REPEAT_COUNT : Nat := 3

/-! ## String helpers mirroring the JavaScript primitives -/

/-- Models JavaScript string truthiness of a possibly-absent value:
true exactly when the key is present with a non-empty string. -/
def optTruthy : Option String → Bool
  | none => false
  | some s => !(s == "")

/-- Value of `opt || "fallback"` in JavaScript. -/
def optOrElse (o : Option String) (fallback : String) : String :=
  if optTruthy o then o.getD fallback else fallback

/-- Models `text.substring(0, n)` (take the first n characters). -/
def takeChars (s : String) (n : Nat) : String := ⟨s.data.take n⟩

/-- Auxiliary for substring search: does the needle occur as a
contiguous run inside the haystack. -/
def infixAux (needle : List Char) : List Char → Bool
  | [] => needle.isEmpty
  | c :: rest => needle.isPrefixOf (c :: rest) || infixAux needle rest

/-- Models `hay.includes(needle)` for JavaScript strings. -/
def strIncludes (hay needle : String) : Bool :=
  infixAux needle.data hay.data

/-- Models `s.split(' ')`: split on every single space character,
keeping empty pieces, as JavaScript does. -/
def splitSpaces : List Char → List (List Char) → List Char → List (List Char)
  | [], acc, cur => acc.concat cur.reverse
  | c :: rest, acc, cur =>
    if c = ' ' then splitSpaces rest (acc.concat cur.reverse) []
    else splitSpaces rest acc (c :: cur)

/-- The word list of a string under naive whitespace tokenization,
exactly as `s.split(' ')`. -/
def splitWords (s : String) : List (List Char) :=
  splitSpaces s.data [] []

/-! ## Loop detection (src/unnamed/part_000, lines 39-82) -/

/-- Per-speaker loop-guard state: the repeat counter
(`translationRepeatCount`, default 0) and the last emitted translation
(`lastTranslationBySpeaker`, `none` when the key is absent). -/
structure LoopState where
  repeatCount : Nat
  lastTranslation : Option String
  deriving Repr, DecidableEq

/-- The fresh loop-guard state for a speaker with no recorded data. -/
def LoopState.initial : LoopState := { repeatCount := 0, lastTranslation := none }

/-- Embeds `detectAndBreakTranslationLoop` (src/unnamed/part_000 lines
39-65) acting on one speaker's loop state: returns the loop flag and
the updated state.  The `if (lastTranslationBySpeaker[speakerId])`
truthiness test skips the comparison when the recorded value is absent
or the empty string.  On the flagged branch the function returns before
the final assignment, so the recorded translation keeps its old value
(which already equals the new one). -/
def detectAndBreakTranslationLoop (st : LoopState) (translatedText : String) :
    Bool × LoopState :=
  if optTruthy st.lastTranslation then
    if st.lastTranslation = some translatedText then
      let c := st.repeatCount + 1
      if c ≥ MAX_REPEAT_COUNT then
        (true, { repeatCount := c, lastTranslation := st.lastTranslation })
      else
        (false, { repeatCount := c, lastTranslation := some translatedText })
    else
      (false, { repeatCount := 0, lastTranslation := some translatedText })
  else
    (false, { st with lastTranslation := some translatedText })

/-! ## Translation-service state (src/unnamed/part_000, lines 5-16) -/

/-- The mutable module state of src/unnamed/part_000.  The cache is the
insertion-ordered JavaScript `Map` as a key-value list; the per-speaker
dictionaries are total functions with `none` for absent keys, and
`lastProcessedTime` reads as `lastProcessedTime[speakerId] || 0`. -/
structure TransState where
  translationInProgress : String → Option String
  translationCache : List (String × String)
  partialTranslations : String → Option String
  lastApiRequestTime : Nat
  lastTranslatedText : String → Option String
  lastProcessedTime : String → Nat
  translationRepeatCount : String → Nat
  lastTranslationBySpeaker : String → Option String

/-- The initial module state: empty dictionaries, empty cache, zero
timestamps. -/
def TransState.initial : TransState :=
  { translationInProgress := fun _ => none
    translationCache := []
    partialTranslations := fun _ => none
    lastApiRequestTime := 0
    lastTranslatedText := fun _ => none
    lastProcessedTime := fun _ => 0
    translationRepeatCount := fun _ => 0
    lastTranslationBySpeaker := fun _ => none }

/-- The loop-guard state of one speaker inside the module state. -/
def TransState.loopState (s : TransState) (speakerId : String) : LoopState :=
  { repeatCount := s.translationRepeatCount speakerId
    lastTranslation := s.lastTranslationBySpeaker speakerId }

/-- Writes one speaker's loop-guard state back into the module state. -/
def TransState.setLoopState (s : TransState) (speakerId : String) (ls : LoopState) :
    TransState :=
  { s with
    translationRepeatCount := fun x => if x = speakerId then ls.repeatCount
      else s.translationRepeatCount x
    lastTranslationBySpeaker := fun x => if x = speakerId then ls.lastTranslation
      else s.lastTranslationBySpeaker x }

/-- Embeds `resetLoopDetection` (src/unnamed/part_000 lines 71-74):
zero the repeat counter and delete the recorded last translation. -/
def resetLoopDetection (s : TransState) (speakerId : String) : TransState :=
  s.setLoopState speakerId LoopState.initial

/-! ## Cache primitives (JavaScript Map semantics) -/

/-- The cache key `inputLang:outputLang:text` built at src/unnamed/part_000
line 97. -/
def cacheKeyOf (inputLang outputLang text : String) : String :=
  inputLang ++ ":" ++ outputLang ++ ":" ++ text

/-- Models `Map.prototype.get`/`has`: the value stored under the key. -/
def cacheFind : List (String × String) → String → Option String
  | [], _ => none
  | (k, v) :: rest, key => if k = key then some v else cacheFind rest key

/-- Models `Map.prototype.set`: update an existing key in place keeping
insertion order, otherwise append at the end. -/
def cacheSet : List (String × String) → String → String → List (String × String)
  | [], key, v => [(key, v)]
  | (k, w) :: rest, key, v =>
    if k = key then (k, v) :: rest else (k, w) :: cacheSet rest key v

/-- Embeds the cache bound of src/unnamed/part_000 lines 237-241: once
the map holds more than 500 entries, the first 100 inserted keys are
deleted. -/
def cacheEvict (c : List (String × String)) : List (String × String) :=
  if c.length > 500 then c.drop 100 else c

/-! ## translateText (src/unnamed/part_000, lines 92-267) -/

/-- Result of one complete `translateText` call: the resolved string,
the module state after the call, and whether the external API call was
issued (`fetch` reached). -/
structure TransResult where
  output : String
  state : TransState
  fetched : Bool

/-- Embeds `hasTimePassedForTranslation` (src/unnamed/part_000 lines
20-31) as a pure step: the boolean result and the updated
`lastProcessedTime` map (updated only when the gate passes). -/
def hasTimePassedForTranslation (s : TransState) (speakerId : String) (now : Nat) :
    Bool × TransState :=
  if now - s.lastProcessedTime speakerId ≥ Config.SUBTITLE_PROCESSING_INTERVAL then
    (true, { s with lastProcessedTime := fun x => if x = speakerId then now
      else s.lastProcessedTime x })
  else
    (false, s)

/-- Embeds the divergence heuristic of src/unnamed/part_000 lines
118-121: when the text has significantly changed from the last text
translated for this speaker (non-empty previous text, neither string a
substring of the other), reset loop detection. -/
def divergenceReset (s : TransState) (speakerId text : String) : TransState :=
  let prevTranslatedText := (s.lastTranslatedText speakerId).getD ""
  if prevTranslatedText ≠ "" ∧ text.length > 0 ∧
      ¬ strIncludes text prevTranslatedText ∧
      ¬ strIncludes prevTranslatedText text then
    resetLoopDetection s speakerId
  else s

/-- The loop-break placeholder published when a translation loop is
detected (src/unnamed/part_000 line 216). -/
def loopBreakMessage : String := "Translation temporarily unavailable. Please wait..."

/-- The in-progress placeholder (src/unnamed/part_000 lines 126, 133,
140, 263). -/
def translatingPlaceholder : String := "Translating..."

/-- Embeds `translateText` (src/unnamed/part_000 lines 92-267).  One
call is one atomic run from entry to resolution; `now` is the timestamp
of the synchronous segment and `fetchOutcome` the result of the awaited
external call (ignored on paths that never fetch).  The scheduled
3-second `resetLoopDetection` timeout of the loop branch is a separate
future event, modelled by applying `resetLoopDetection` afterwards.
Display-path writes (`updateActiveSpeakerTranslation`) touch the
subtitle processor's state, not this module's, and are not part of this
state. -/
def translateText (s : TransState) (speakerId text inputLang outputLang : String)
    (now : Nat) (fetchOutcome : Option String) : TransResult :=
  if text.length < 2 then ⟨text, s, false⟩ else
  let cacheKey := cacheKeyOf inputLang outputLang text
  match cacheFind s.translationCache cacheKey with
  | some cachedTranslation => ⟨cachedTranslation, s, false⟩
  | none =>
    let prevTranslatedText := (s.lastTranslatedText speakerId).getD ""
    if text = prevTranslatedText ∧ optTruthy (s.partialTranslations speakerId) then
      ⟨(s.partialTranslations speakerId).getD "", s, false⟩
    else
    let s1 := divergenceReset s speakerId text
    match hasTimePassedForTranslation s1 speakerId now with
    | (false, s1) => ⟨optOrElse (s1.partialTranslations speakerId) translatingPlaceholder, s1, false⟩
    | (true, s2) =>
      if now - s2.lastApiRequestTime < Config.API_RATE_LIMIT then
        ⟨optOrElse (s2.partialTranslations speakerId) translatingPlaceholder, s2, false⟩
      else
      if (s2.translationInProgress speakerId).isSome then
        ⟨optOrElse (s2.partialTranslations speakerId) translatingPlaceholder, s2, false⟩
      else
      let s3 := { s2 with
        lastTranslatedText := fun x => if x = speakerId then some text
          else s2.lastTranslatedText x
        translationInProgress := fun x => if x = speakerId then some text
          else s2.translationInProgress x }
      let s4 := { s3 with lastApiRequestTime := now }
      match fetchOutcome with
      | none =>
        let s5 := { s4 with translationInProgress := fun x =>
          if x = speakerId then none else s4.translationInProgress x }
        if optTruthy (s5.partialTranslations speakerId) then
          ⟨(s5.partialTranslations speakerId).getD "", s5, true⟩
        else
          ⟨translatingPlaceholder, s5, true⟩
      | some translatedText =>
        let s5 := { s4 with
          translationCache := cacheSet s4.translationCache cacheKey translatedText }
        let det := detectAndBreakTranslationLoop (s5.loopState speakerId) translatedText
        let s6 := s5.setLoopState speakerId det.2
        if det.1 then
          let s7 := { s6 with
            translationInProgress := fun x => if x = speakerId then none
              else s6.translationInProgress x
            partialTranslations := fun x => if x = speakerId then none
              else s6.partialTranslations x
            lastTranslatedText := fun x => if x = speakerId then none
              else s6.lastTranslatedText x }
          ⟨loopBreakMessage, s7, true⟩
        else
          let s7 := { s6 with
            partialTranslations := fun x => if x = speakerId then some translatedText
              else s6.partialTranslations x
            translationInProgress := fun x => if x = speakerId then none
              else s6.translationInProgress x }
          let s8 := { s7 with translationCache := cacheEvict s7.translationCache }
          ⟨translatedText, s8, true⟩

/-! ## Utterance history records (src/src/subtitle-processor.js) -/

/-- A record stored in `translatedUtterances`.  Fields written by only
one of the two writers are `Option`s with `none` meaning the property
is absent from the object: `finalizeSpeech` spreads an active-speaker
utterance (`utteranceId`, `fullText`, `translatedText`), while
`translateAndUpdateUtterance` writes `id`, `original`, `translated` and
a `timestamp` (lines 376-385) and no `utteranceId`.  `timestampKey`
models `new Date(r.timestamp).getTime()`, the parsed sort fallback, with
`none` for an absent timestamp; `lastUpdated` is `none` until
`updateTranslatedUtterancesMap` stamps the record.  Display-only fields
no claim observes (avatar, lastTime, speakerId, the raw timestamp
string) are omitted. -/
structure HistRecord where
  utteranceId : Option String
  id : Option String
  speaker : String
  fullText : Option String
  translatedText : Option String
  original : Option String
  translated : Option String
  active : Bool
  timestampKey : Option Nat
  lastUpdated : Option Nat
  deriving Repr, DecidableEq, Inhabited

/-- Models the object spread `{...existing, ...utterance, lastUpdated:
Date.now()}` of lines 419-423: a property of the update object
overrides the stored one only when present; `speaker` and `active` are
present in every writer's payload. -/
def mergeRecord (existing utterance : HistRecord) (now : Nat) : HistRecord :=
  { utteranceId := utterance.utteranceId <|> existing.utteranceId
    id := utterance.id <|> existing.id
    speaker := utterance.speaker
    fullText := utterance.fullText <|> existing.fullText
    translatedText := utterance.translatedText <|> existing.translatedText
    original := utterance.original <|> existing.original
    translated := utterance.translated <|> existing.translated
    active := utterance.active
    timestampKey := utterance.timestampKey <|> existing.timestampKey
    lastUpdated := some now }

/-- Sort fallback `(r.timestamp ? new Date(r.timestamp).getTime() : 0)`
of lines 479-480. -/
def tsKeyOf (r : HistRecord) : Nat := r.timestampKey.getD 0

/-- The comparison key `r.lastUpdated || (r.timestamp ? ... : 0)` used
by validateUtterancesMap's sort (lines 478-482). -/
def sortKey (r : HistRecord) : Nat :=
  match r.lastUpdated with
  | some n => if n ≠ 0 then n else tsKeyOf r
  | none => tsKeyOf r

/-- One pass of the dedup-and-id filter of validateUtterancesMap (lines
465-475): drop records whose `utteranceId` property is absent or falsy
(empty), and of several records with the same id keep the first. -/
def dedupeById (seen : List String) : List HistRecord → List HistRecord
  | [] => []
  | r :: rest =>
    match r.utteranceId with
    | some uid =>
      if uid = "" then dedupeById seen rest
      else if uid ∈ seen then dedupeById seen rest
      else r :: dedupeById (uid :: seen) rest
    | none => dedupeById seen rest

/-- Insert a record into a list sorted by `sortKey` descending, after
any records of greater-or-equal key (stable). -/
def insertDesc (x : HistRecord) : List HistRecord → List HistRecord
  | [] => [x]
  | y :: ys => if sortKey x > sortKey y then x :: y :: ys else y :: insertDesc x ys

/-- Models the `sort((a, b) => timeB - timeA)` of lines 478-482: sort
most-recently-updated first. -/
def sortByKeyDesc : List HistRecord → List HistRecord
  | [] => []
  | x :: xs => insertDesc x (sortByKeyDesc xs)

/-- Embeds `validateUtterancesMap` (lines 449-488) on one speaker's
list: filter out id-less records, deduplicate by `utteranceId` keeping
the first occurrence, sort by most-recent update.  The repair branch
for non-array map values is unrepresentable in the typed model (values
are always lists here). -/
def validateList (lst : List HistRecord) : List HistRecord :=
  sortByKeyDesc (dedupeById [] lst)

/-- Embeds `updateTranslatedUtterancesMap` (lines 408-444) followed by
the `validateUtterancesMap()` call it ends with: merge into an existing
record with the same `utteranceId` or append a freshly stamped record,
cap the list at `MAX_STORED_UTTERANCES` keeping the most recent
(`slice(-max)`), then validate every speaker's list. -/
def updateTranslatedUtterancesMap (hist : String → List HistRecord)
    (speakerId : String) (utterance : HistRecord) (now : Nat) :
    String → List HistRecord :=
  let lst := hist speakerId
  let newLst :=
    match lst.findIdx? (fun u => u.utteranceId == utterance.utteranceId) with
    | some i => lst.set i (mergeRecord (lst.getD i default) utterance now)
    | none =>
      let stamped := { utterance with timestampKey := some now, lastUpdated := some now }
      let pushed := lst ++ [stamped]
      if pushed.length > Config.MAX_STORED_UTTERANCES then
        pushed.drop (pushed.length - Config.MAX_STORED_UTTERANCES)
      else pushed
  let hist1 := fun x => if x = speakerId then newLst else hist x
  fun x => validateList (hist1 x)

/-! ## Active utterances and finalizeSpeech -/

/-- An entry of `activeSpeakers` (subtitle-processor.js lines
273-281). -/
structure Utterance where
  speaker : String
  fullText : String
  lastTime : Nat
  translatedText : String
  utteranceId : String
  active : Bool
  avatar : Option String
  deriving Repr, DecidableEq, Inhabited

/-- The subtitle-processor module state the finalization path touches:
the active-speaker map, the per-speaker history, and the clearing
flag. -/
structure ProcState where
  activeSpeakers : String → Option Utterance
  translatedUtterances : String → List HistRecord
  isClearing : Bool

/-- The history record `{...currentUtterance, active: false}` that
finalizeSpeech stores (lines 533-535 and 558-561). -/
def finalizeRecord (u : Utterance) : HistRecord :=
  { utteranceId := some u.utteranceId
    id := none
    speaker := u.speaker
    fullText := some u.fullText
    translatedText := some u.translatedText
    original := none
    translated := none
    active := false
    timestampKey := none
    lastUpdated := none }

/-- The update payload of `translateAndUpdateUtterance` (lines
376-385): the utterance id is recorded under the property `id`, there
is no `utteranceId` property, and the freshly written timestamp parses
to `tsKey`. -/
def progressRecord (u : Utterance) (translatedText : String) (tsKey : Nat) :
    HistRecord :=
  { utteranceId := none
    id := some u.utteranceId
    speaker := u.speaker
    fullText := none
    translatedText := none
    original := some u.fullText
    translated := some translatedText
    active := true
    timestampKey := some tsKey
    lastUpdated := none }

/-- The rollover placeholder (subtitle-processor.js line 544). -/
def continuingPlaceholder : String := "Continuing..."

/-- Embeds `finalizeSpeech` (subtitle-processor.js lines 496-574).
`now` is the timestamp of the synchronous segment (`Date.now()`); the
awaited `translateText` resolution, used only when a final translation
is performed, is the explicit `translateResult` parameter (that call
never rejects, see translateText).  The JavaScript mutation
`currentUtterance.translatedText = finalText` acts on the object shared
with `activeSpeakers`, so the kept active entry carries the final
text. -/
def finalizeSpeech (s : ProcState) (speakerId : String) (now : Nat)
    (translateResult : String) : ProcState :=
  match s.activeSpeakers speakerId with
  | none => s
  | some cu0 =>
    if s.isClearing then s else
    let isExcessivelyLong := cu0.fullText.length > Config.MAX_SPEECH_SEGMENT_LENGTH
    let cu := if isExcessivelyLong ∨ cu0.translatedText = "" ∨
        cu0.translatedText = translatingPlaceholder then
      { cu0 with translatedText := translateResult } else cu0
    if isExcessivelyLong then
      { s with
        translatedUtterances := updateTranslatedUtterancesMap
          s.translatedUtterances speakerId (finalizeRecord cu) now
        activeSpeakers := fun x => if x = speakerId then some
            { speaker := cu.speaker
              fullText := ""
              lastTime := now
              translatedText := continuingPlaceholder
              utteranceId := toString now
              active := true
              avatar := cu.avatar }
          else s.activeSpeakers x }
    else
      { s with
        translatedUtterances := updateTranslatedUtterancesMap
          s.translatedUtterances speakerId (finalizeRecord cu) now
        activeSpeakers :=
          if cu.translatedText ≠ "" ∧ cu.translatedText ≠ translatingPlaceholder then
            fun x => if x = speakerId then none else s.activeSpeakers x
          else
            fun x => if x = speakerId then some cu else s.activeSpeakers x }

/-! ## Continuation classification (processSubtitles, lines 204-259) -/

/-- Models `Math.floor(n * 0.8)`: for string lengths in range the
double-precision product rounds within the same unit interval, so the
floor equals natural-number division. -/
def floor80Len (n : Nat) : Nat := 4 * n / 5

/-- The first-80-percent prefix `text.substring(0, Math.floor(
text.length * 0.8))`. -/
def prefix80 (s : String) : String := takeChars s (floor80Len s.length)

/-- The first-five-words signal of lines 224-235: both word lists (from
naive single-space split) have at least five entries and the joined
first five words coincide. -/
def firstFiveWordsEqual (existingText text : String) : Bool :=
  let existingWords := splitWords existingText
  let newWords := splitWords text
  if existingWords.length ≥ 5 ∧ newWords.length ≥ 5 then
    List.intercalate [' '] (existingWords.take 5) ==
      List.intercalate [' '] (newWords.take 5)
  else false

/-- Embeds the continuation decision of processSubtitles lines 212-236:
inside the `if (existingText && text)` guard, set the flag when either
string contains the floor-rounded 80-percent prefix of the other or the
first five words agree. -/
def isContinuationOf (existingText text : String) : Bool :=
  if existingText ≠ "" ∧ text ≠ "" then
    (strIncludes existingText (prefix80 text) ||
      strIncludes text (prefix80 existingText))
    || firstFiveWordsEqual existingText text
  else false

/-- Embeds the text-keeping rule of lines 238-248 as a function of the
stored and new text: under `isContinuation || text.length >
fullText.length || hasContentChanged`, keep the stored text when the
new one is a strictly shorter continuation, otherwise store the new
text. -/
def updatedFullText (existingText text : String) : String :=
  let isCont := isContinuationOf existingText text
  if isCont || decide (text.length > existingText.length) ||
      !(existingText == text) then
    if isCont && decide (text.length < existingText.length) then existingText
    else text
  else existingText

/-- Continuation predicate as claim C9 words it, for comparison with
the source definition: either text contains at least the first 80
percent (by character count, floor-rounded) of the other, or the first
five words after naive whitespace tokenization are equal — with no
requirement that the texts be non-empty. -/
def claimContinuation (existingText text : String) : Bool :=
  (strIncludes existingText (prefix80 text) ||
    strIncludes text (prefix80 existingText))
  || firstFiveWordsEqual existingText text

/-! ## Derived predicates and drivers used by the statements -/

/-- A history list has no two entries with the same utteranceId. -/
def distinctIds (lst : List HistRecord) : Prop :=
  lst.Pairwise (fun a b => a.utteranceId ≠ b.utteranceId)

/-- A history list is sorted most-recently-updated first. -/
def sortedByRecency (lst : List HistRecord) : Prop :=
  lst.Pairwise (fun a b => sortKey b ≤ sortKey a)

/-- One caption-driven invocation of translateText: the arguments of
the call together with the timestamp of its synchronous segment and the
outcome of its external fetch, should one be issued. -/
structure CallSpec where
  text : String
  inputLang : String
  outputLang : String
  now : Nat
  fetchOutcome : Option String

/-- Runs a sequence of translateText calls for one speaker, threading
the module state and counting how many external API calls were
issued. -/
def runCalls (s : TransState) (speakerId : String) : List CallSpec → TransState × Nat
  | [] => (s, 0)
  | c :: cs =>
    let r := translateText s speakerId c.text c.inputLang c.outputLang c.now c.fetchOutcome
    let rest := runCalls r.state speakerId cs
    (rest.1, (if r.fetched then 1 else 0) + rest.2)

/-- First call of the loop-guard scenario: a fresh state, caption text
"aa", and a transport that answers T. -/
def c1Call1 (T : String) : TransResult :=
  translateText TransState.initial "s" "aa" "en" "fr" 2000 (some T)

/-- Second call of the scenario: the caption has grown to "aab" and the
transport again answers T. -/
def c1Call2 (T : String) : TransResult :=
  translateText (c1Call1 T).state "s" "aab" "en" "fr" 4500 (some T)

/-- Third call of the scenario: the transport answers T for the third
consecutive time. -/
def c1Call3 (T : String) : TransResult :=
  translateText (c1Call2 T).state "s" "aabc" "en" "fr" 7000 (some T)

/-- Fourth call of the scenario: the transport answers T for the fourth
consecutive time. -/
def c1Call4 (T : String) : TransResult :=
  translateText (c1Call3 T).state "s" "aabcd" "en" "fr" 9500 (some T)

/-- Fifth call of the scenario, issued after the scheduled cooldown
reset has run; the transport now answers a different string Tn. -/
def c1Call5 (T Tn : String) : TransResult :=
  translateText (resetLoopDetection (c1Call4 T).state "s") "s" "aabcde" "en" "fr"
    12000 (some Tn)

/-! ## Field lemmas for the divergence step -/

theorem divergenceReset_translationInProgress (s : TransState) (speakerId text : String) :
    (divergenceReset s speakerId text).translationInProgress = s.translationInProgress := by
  unfold divergenceReset
  dsimp only
  split
  · rfl
  · rfl

theorem divergenceReset_translationCache (s : TransState) (speakerId text : String) :
    (divergenceReset s speakerId text).translationCache = s.translationCache := by
  unfold divergenceReset
  dsimp only
  split
  · rfl
  · rfl

theorem divergenceReset_partialTranslations (s : TransState) (speakerId text : String) :
    (divergenceReset s speakerId text).partialTranslations = s.partialTranslations := by
  unfold divergenceReset
  dsimp only
  split
  · rfl
  · rfl

theorem divergenceReset_lastApiRequestTime (s : TransState) (speakerId text : String) :
    (divergenceReset s speakerId text).lastApiRequestTime = s.lastApiRequestTime := by
  unfold divergenceReset
  dsimp only
  split
  · rfl
  · rfl

theorem divergenceReset_lastTranslatedText (s : TransState) (speakerId text : String) :
    (divergenceReset s speakerId text).lastTranslatedText = s.lastTranslatedText := by
  unfold divergenceReset
  dsimp only
  split
  · rfl
  · rfl

theorem divergenceReset_lastProcessedTime (s : TransState) (speakerId text : String) :
    (divergenceReset s speakerId text).lastProcessedTime = s.lastProcessedTime := by
  unfold divergenceReset
  dsimp only
  split
  · rfl
  · rfl

/-! ## Lemmas about the history validation pass -/

theorem dedupeById_cons_none {x : HistRecord} (seen : List String)
    (rest : List HistRecord) (hid : x.utteranceId = none) :
    dedupeById seen (x :: rest) = dedupeById seen rest := by
  conv_lhs => rw [dedupeById]
  rw [hid]

theorem dedupeById_cons_skip {x : HistRecord} {uid : String} (seen : List String)
    (rest : List HistRecord) (hid : x.utteranceId = some uid)
    (h : uid = "" ∨ uid ∈ seen) :
    dedupeById seen (x :: rest) = dedupeById seen rest := by
  conv_lhs => rw [dedupeById]
  rw [hid]
  dsimp only
  rcases h with h | h
  · rw [if_pos h]
  · by_cases h1 : uid = ""
    · rw [if_pos h1]
    · rw [if_neg h1, if_pos h]

theorem dedupeById_cons_keep {x : HistRecord} {uid : String} (seen : List String)
    (rest : List HistRecord) (hid : x.utteranceId = some uid)
    (h1 : uid ≠ "") (h2 : uid ∉ seen) :
    dedupeById seen (x :: rest) = x :: dedupeById (uid :: seen) rest := by
  conv_lhs => rw [dedupeById]
  rw [hid]
  dsimp only
  rw [if_neg h1, if_neg h2]

theorem insertDesc_perm (x : HistRecord) (l : List HistRecord) :
    (insertDesc x l).Perm (x :: l) := by
  induction l with
  | nil => simp [insertDesc]
  | cons y ys ih =>
    by_cases h : sortKey x > sortKey y
    · simp [insertDesc, h]
    · simp only [insertDesc, if_neg h]
      exact ((ih.cons y).trans (List.Perm.swap x y ys))

theorem sortByKeyDesc_perm (l : List HistRecord) : (sortByKeyDesc l).Perm l := by
  induction l with
  | nil => simp [sortByKeyDesc]
  | cons x xs ih => exact (insertDesc_perm x (sortByKeyDesc xs)).trans (ih.cons x)

theorem insertDesc_sorted {l : List HistRecord} (x : HistRecord)
    (h : l.Pairwise (fun a b => sortKey b ≤ sortKey a)) :
    (insertDesc x l).Pairwise (fun a b => sortKey b ≤ sortKey a) := by
  induction l with
  | nil => simp [insertDesc]
  | cons y ys ih =>
    rcases List.pairwise_cons.mp h with ⟨hy, hys⟩
    by_cases hgt : sortKey x > sortKey y
    · simp only [insertDesc, if_pos hgt]
      refine List.pairwise_cons.mpr ⟨?_, h⟩
      intro z hz
      rcases List.mem_cons.mp hz with h3 | h3
      · rw [h3]; exact Nat.le_of_lt hgt
      · exact Nat.le_trans (hy z h3) (Nat.le_of_lt hgt)
    · simp only [insertDesc, if_neg hgt]
      refine List.pairwise_cons.mpr ⟨?_, ih hys⟩
      intro z hz
      rcases List.mem_cons.mp ((insertDesc_perm x ys).mem_iff.mp hz) with h3 | h3
      · rw [h3]; exact Nat.le_of_not_lt hgt
      · exact hy z h3

theorem sortByKeyDesc_sorted (l : List HistRecord) :
    sortedByRecency (sortByKeyDesc l) := by
  induction l with
  | nil => exact List.Pairwise.nil
  | cons x xs ih => exact insertDesc_sorted x ih

theorem dedupeById_sublist (seen : List String) (l : List HistRecord) :
    (dedupeById seen l).Sublist l := by
  induction l generalizing seen with
  | nil => simp [dedupeById]
  | cons r rest ih =>
    rcases hid : r.utteranceId with _ | uid
    · rw [dedupeById_cons_none seen rest hid]
      exact (ih seen).cons r
    · by_cases h1 : uid = ""
      · rw [dedupeById_cons_skip seen rest hid (Or.inl h1)]
        exact (ih seen).cons r
      · by_cases h2 : uid ∈ seen
        · rw [dedupeById_cons_skip seen rest hid (Or.inr h2)]
          exact (ih seen).cons r
        · rw [dedupeById_cons_keep seen rest hid h1 h2]
          exact (ih (uid :: seen)).cons₂ r

theorem dedupeById_mem {r : HistRecord} {seen : List String} {l : List HistRecord}
    (h : r ∈ dedupeById seen l) :
    ∃ uid, r.utteranceId = some uid ∧ uid ≠ "" ∧ uid ∉ seen := by
  induction l generalizing seen with
  | nil => simp [dedupeById] at h
  | cons x rest ih =>
    rcases hid : x.utteranceId with _ | uid
    · rw [dedupeById_cons_none seen rest hid] at h
      exact ih h
    · by_cases h1 : uid = ""
      · rw [dedupeById_cons_skip seen rest hid (Or.inl h1)] at h
        exact ih h
      · by_cases h2 : uid ∈ seen
        · rw [dedupeById_cons_skip seen rest hid (Or.inr h2)] at h
          exact ih h
        · rw [dedupeById_cons_keep seen rest hid h1 h2] at h
          rcases List.mem_cons.mp h with h3 | h3
          · exact ⟨uid, h3 ▸ hid, h1, h2⟩
          · rcases ih h3 with ⟨uid2, hu, hne, hnotin⟩
            exact ⟨uid2, hu, hne, fun hmem => hnotin (List.mem_cons_of_mem _ hmem)⟩

theorem dedupeById_pairwise (seen : List String) (l : List HistRecord) :
    distinctIds (dedupeById seen l) := by
  induction l generalizing seen with
  | nil => exact List.Pairwise.nil
  | cons x rest ih =>
    rcases hid : x.utteranceId with _ | uid
    · rw [distinctIds, dedupeById_cons_none seen rest hid]
      exact ih seen
    · by_cases h1 : uid = ""
      · rw [distinctIds, dedupeById_cons_skip seen rest hid (Or.inl h1)]
        exact ih seen
      · by_cases h2 : uid ∈ seen
        · rw [distinctIds, dedupeById_cons_skip seen rest hid (Or.inr h2)]
          exact ih seen
        · rw [distinctIds, dedupeById_cons_keep seen rest hid h1 h2]
          refine List.pairwise_cons.mpr ⟨?_, ih (uid :: seen)⟩
          intro y hy
          rcases dedupeById_mem hy with ⟨uidy, huy, _, hnotin⟩
          rw [hid, huy]
          intro hcontra
          apply hnotin
          rw [← Option.some.injEq uid uidy |>.mp hcontra]
          exact List.mem_cons_self uid seen

theorem validateList_length (l : List HistRecord) :
    (validateList l).length ≤ l.length := by
  unfold validateList
  rw [(sortByKeyDesc_perm _).length_eq]
  exact (dedupeById_sublist [] l).length_le

theorem validateList_distinct (l : List HistRecord) : distinctIds (validateList l) := by
  unfold validateList
  have hsym : ∀ {a b : HistRecord}, a.utteranceId ≠ b.utteranceId →
      b.utteranceId ≠ a.utteranceId := fun h => Ne.symm h
  exact ((sortByKeyDesc_perm (dedupeById [] l)).pairwise_iff hsym).mpr
    (dedupeById_pairwise [] l)

theorem validateList_sorted (l : List HistRecord) : sortedByRecency (validateList l) :=
  sortByKeyDesc_sorted _

theorem validateList_hasId {r : HistRecord} {l : List HistRecord}
    (h : r ∈ validateList l) : ∃ uid, r.utteranceId = some uid ∧ uid ≠ "" := by
  unfold validateList at h
  rcases dedupeById_mem ((sortByKeyDesc_perm _).mem_iff.mp h) with ⟨uid, hu, hne, _⟩
  exact ⟨uid, hu, hne⟩

theorem validateList_mem_subset {r : HistRecord} {l : List HistRecord}
    (h : r ∈ validateList l) : r ∈ l := by
  unfold validateList at h
  exact (dedupeById_sublist [] l).mem ((sortByKeyDesc_perm _).mem_iff.mp h)

theorem cappedAppend_length_le (l : List HistRecord) (x : HistRecord) (n : Nat) :
    (if (l ++ [x]).length > n then
        (l ++ [x]).drop ((l ++ [x]).length - n)
      else l ++ [x]).length ≤ n := by
  by_cases h : (l ++ [x]).length > n
  · rw [if_pos h, List.length_drop]
    omega
  · rw [if_neg h]
    omega

/-! ## Claim C8: history bound, dedup, and ordering -/

/-- C8: for every speaker, after any update to the translated-utterances
history via updateTranslatedUtterancesMap (which ends by running
validateUtterancesMap), the speaker's list never exceeds
MAX_STORED_UTTERANCES entries, contains no two entries with the same
utteranceId, and is sorted most-recently-updated first.  The length
hypothesis is the invariant itself, restored by every update. -/
theorem c8_history_bound_dedup_sorted
    (hist : String → List HistRecord) (speakerId : String) (u : HistRecord)
    (now : Nat) (k : String)
    (hlen : ∀ j, (hist j).length ≤ Config.MAX_STORED_UTTERANCES) :
    ((updateTranslatedUtterancesMap hist speakerId u now) k).length ≤
        Config.MAX_STORED_UTTERANCES ∧
    distinctIds ((updateTranslatedUtterancesMap hist speakerId u now) k) ∧
    sortedByRecency ((updateTranslatedUtterancesMap hist speakerId u now) k) := by
  refine ⟨?_, validateList_distinct _, validateList_sorted _⟩
  refine Nat.le_trans (validateList_length _) ?_
  dsimp only
  by_cases hk : k = speakerId
  · subst hk
    rw [if_pos rfl]
    rcases hfi : (hist k).findIdx?
        (fun v => v.utteranceId == u.utteranceId) with _ | i
    · rw [hfi]
      exact cappedAppend_length_le (hist k) _ _
    · rw [hfi]
      exact Nat.le_trans (Nat.le_of_eq (List.length_set _ _ _)) (hlen k)
  · rw [if_neg hk]
    exact hlen k

/-- Witness for C8 at a concrete input: empty history, one finalized
record pushed. -/
theorem c8_history_bound_dedup_sorted_witness :
    (∀ j : String, ((fun _ => ([] : List HistRecord)) j).length ≤
        Config.MAX_STORED_UTTERANCES) ∧
    (((updateTranslatedUtterancesMap (fun _ => [])
        "sp" (finalizeRecord (Utterance.mk "A" "hi" 1 "hola" "u1" true none))
        5) "sp").length ≤ Config.MAX_STORED_UTTERANCES ∧
      distinctIds ((updateTranslatedUtterancesMap (fun _ => [])
        "sp" (finalizeRecord (Utterance.mk "A" "hi" 1 "hola" "u1" true none))
        5) "sp") ∧
      sortedByRecency ((updateTranslatedUtterancesMap (fun _ => [])
        "sp" (finalizeRecord (Utterance.mk "A" "hi" 1 "hola" "u1" true none))
        5) "sp")) :=
  ⟨fun _ => by simp [Config.MAX_STORED_UTTERANCES],
   c8_history_bound_dedup_sorted (fun _ => []) "sp" _ 5 "sp"
     (fun _ => by simp [Config.MAX_STORED_UTTERANCES])⟩

/-! ## Claim C10: only records with a defined utteranceId persist -/

/-- C10: the records written by translateAndUpdateUtterance carry the
utterance identifier under the field id and have no utteranceId field,
and validateUtterancesMap (run at the end of every
updateTranslatedUtterancesMap) removes every entry without a defined,
non-empty utteranceId — so after any update that stores a progress
record, every entry of every speaker's history has a defined
utteranceId, and in particular the progress record itself is gone. -/
theorem c10_progress_records_filtered
    (hist : String → List HistRecord) (speakerId : String) (u : Utterance)
    (translated : String) (tsKey now : Nat) (k : String) :
    (progressRecord u translated tsKey).utteranceId = none ∧
    ∀ r ∈ (updateTranslatedUtterancesMap hist speakerId
        (progressRecord u translated tsKey) now) k,
      ∃ uid, r.utteranceId = some uid ∧ uid ≠ "" := by
  refine ⟨rfl, ?_⟩
  intro r hr
  exact validateList_hasId hr

/-- Witness for C10 at a concrete input: a history holding one properly
finalized record receives a progress record; the finalized record
survives with its id. -/
theorem c10_progress_records_filtered_witness :
    (progressRecord (Utterance.mk "A" "hi" 1 "hola" "u1" true none) "tr" 3).utteranceId
        = none ∧
    ∃ uid, (HistRecord.mk (some "g1") none "A" none none none none false none
        (some 7)).utteranceId = some uid ∧ uid ≠ "" :=
  ⟨(c10_progress_records_filtered
      (fun _ => [HistRecord.mk (some "g1") none "A" none none none none false none (some 7)])
      "sp" (Utterance.mk "A" "hi" 1 "hola" "u1" true none) "tr" 3 9 "sp").1,
   (c10_progress_records_filtered
      (fun _ => [HistRecord.mk (some "g1") none "A" none none none none false none (some 7)])
      "sp" (Utterance.mk "A" "hi" 1 "hola" "u1" true none) "tr" 3 9 "sp").2
      (HistRecord.mk (some "g1") none "A" none none none none false none (some 7))
      (by decide)⟩

/-! ## Counting lemmas for claim C6 -/

theorem dedupeById_countP {uid : String} (huid : uid ≠ "") :
    ∀ (l : List HistRecord) (seen : List String), uid ∉ seen →
      l.countP (fun r => r.utteranceId == some uid) = 1 →
      (dedupeById seen l).countP (fun r => r.utteranceId == some uid) = 1 := by
  intro l
  induction l with
  | nil => intro seen _ h; simp [List.countP_nil] at h
  | cons x rest ih =>
    intro seen hseen hcount
    rcases hid : x.utteranceId with _ | uid2
    · rw [dedupeById_cons_none seen rest hid]
      rw [List.countP_cons, hid] at hcount
      simp only [show ((none : Option String) == some uid) = false from rfl,
        if_neg Bool.false_ne_true, Nat.add_zero] at hcount
      exact ih seen hseen hcount
    · by_cases heq : uid2 = uid
      · subst heq
        have h1 : uid2 ≠ "" := huid
        have h2 : uid2 ∉ seen := hseen
        rw [dedupeById_cons_keep seen rest hid h1 h2]
        rw [List.countP_cons, hid, beq_self_eq_true, if_pos rfl] at hcount
        have hrest : rest.countP (fun r => r.utteranceId == some uid2) = 0 := by omega
        have hle := (dedupeById_sublist (uid2 :: seen) rest).countP_le
          (fun r => r.utteranceId == some uid2)
        rw [List.countP_cons, hid, beq_self_eq_true, if_pos rfl]
        omega
      · have hne : (some uid2 == some uid) = false := by
          rw [beq_eq_false_iff_ne]
          intro hcontra
          exact heq (Option.some_injective _ hcontra)
        rw [List.countP_cons, hid, hne, if_neg Bool.false_ne_true, Nat.add_zero] at hcount
        by_cases h1 : uid2 = ""
        · rw [dedupeById_cons_skip seen rest hid (Or.inl h1)]
          exact ih seen hseen hcount
        · by_cases h2 : uid2 ∈ seen
          · rw [dedupeById_cons_skip seen rest hid (Or.inr h2)]
            exact ih seen hseen hcount
          · rw [dedupeById_cons_keep seen rest hid h1 h2]
            rw [List.countP_cons, hid, hne, if_neg Bool.false_ne_true, Nat.add_zero]
            have huidmem : uid ∉ uid2 :: seen := by
              intro hmem
              rcases List.mem_cons.mp hmem with h3 | h3
              · exact heq h3.symm
              · exact hseen h3
            exact ih (uid2 :: seen) huidmem hcount

theorem validateList_countP {uid : String} (huid : uid ≠ "") (l : List HistRecord)
    (hcount : l.countP (fun r => r.utteranceId == some uid) = 1) :
    (validateList l).countP (fun r => r.utteranceId == some uid) = 1 := by
  unfold validateList
  rw [(sortByKeyDesc_perm _).countP_eq]
  exact dedupeById_countP huid l [] (List.not_mem_nil uid) hcount

/-! ## Characterizations of finalizeSpeech -/

theorem finalizeSpeech_long_eq (s : ProcState) (speakerId : String) (now : Nat)
    (translateResult : String) (cu : Utterance)
    (hact : s.activeSpeakers speakerId = some cu)
    (hclr : s.isClearing = false)
    (hlong : cu.fullText.length > Config.MAX_SPEECH_SEGMENT_LENGTH) :
    finalizeSpeech s speakerId now translateResult =
      { s with
        translatedUtterances := updateTranslatedUtterancesMap
          s.translatedUtterances speakerId
          (finalizeRecord { cu with translatedText := translateResult }) now
        activeSpeakers := fun x => if x = speakerId then some
            { speaker := cu.speaker
              fullText := ""
              lastTime := now
              translatedText := continuingPlaceholder
              utteranceId := toString now
              active := true
              avatar := cu.avatar }
          else s.activeSpeakers x } := by
  unfold finalizeSpeech
  rw [hact]
  dsimp only
  rw [hclr]
  rw [if_neg Bool.false_ne_true]
  rw [if_pos (Or.inl hlong), if_pos hlong]

theorem finalizeSpeech_short_eq (s : ProcState) (speakerId : String) (now : Nat)
    (translateResult : String) (cu : Utterance)
    (hact : s.activeSpeakers speakerId = some cu)
    (hclr : s.isClearing = false)
    (hshort : ¬ cu.fullText.length > Config.MAX_SPEECH_SEGMENT_LENGTH) :
    finalizeSpeech s speakerId now translateResult =
      (let cuF := if cu.translatedText = "" ∨ cu.translatedText = translatingPlaceholder
        then { cu with translatedText := translateResult } else cu
      { s with
        translatedUtterances := updateTranslatedUtterancesMap
          s.translatedUtterances speakerId (finalizeRecord cuF) now
        activeSpeakers :=
          if cuF.translatedText ≠ "" ∧ cuF.translatedText ≠ translatingPlaceholder then
            fun x => if x = speakerId then none else s.activeSpeakers x
          else
            fun x => if x = speakerId then some cuF else s.activeSpeakers x }) := by
  unfold finalizeSpeech
  rw [hact]
  dsimp only
  rw [hclr]
  rw [if_neg Bool.false_ne_true]
  by_cases hup : cu.translatedText = "" ∨ cu.translatedText = translatingPlaceholder
  · rw [if_pos (Or.inr hup), if_neg hshort, if_pos hup]
  · have hno : ¬(cu.fullText.length > Config.MAX_SPEECH_SEGMENT_LENGTH ∨
        cu.translatedText = "" ∨ cu.translatedText = translatingPlaceholder) :=
      fun hcontra => hcontra.elim hshort hup
    rw [if_neg hno, if_neg hshort, if_neg hup]

theorem cappedAppend_countP (l : List HistRecord) (x : HistRecord) (n : Nat)
    (p : HistRecord → Bool) (hn : 0 < n) (hl : l.countP p = 0) (hx : p x = true) :
    (if (l ++ [x]).length > n then
        (l ++ [x]).drop ((l ++ [x]).length - n)
      else l ++ [x]).countP p = 1 := by
  have hcount : (l ++ [x]).countP p = 1 := by
    rw [List.countP_append, hl, List.countP_cons, List.countP_nil, hx]
    rfl
  by_cases h : (l ++ [x]).length > n
  · rw [if_pos h]
    have hlen : (l ++ [x]).length = l.length + 1 := by
      rw [List.length_append, List.length_cons, List.length_nil]
    have hk : (l ++ [x]).length - n ≤ l.length := by omega
    rw [List.drop_append_of_le_length hk, List.countP_append]
    have hdl : (l.drop ((l ++ [x]).length - n)).countP p = 0 := by
      have := (List.drop_sublist ((l ++ [x]).length - n) l).countP_le p
      omega
    rw [hdl, List.countP_cons, List.countP_nil, hx]
    rfl
  · rw [if_neg h]
    exact hcount

theorem cappedAppend_mem {l : List HistRecord} {x r : HistRecord} {n : Nat}
    (hr : r ∈ (if (l ++ [x]).length > n then
        (l ++ [x]).drop ((l ++ [x]).length - n)
      else l ++ [x])) :
    r ∈ l ∨ r = x := by
  have hmem : r ∈ l ++ [x] := by
    by_cases h : (l ++ [x]).length > n
    · rw [if_pos h] at hr
      exact List.mem_of_mem_drop hr
    · rw [if_neg h] at hr
      exact hr
  rcases List.mem_append.mp hmem with h | h
  · exact Or.inl h
  · exact Or.inr (List.mem_singleton.mp h)

theorem updateMap_at_self_push (hist : String → List HistRecord)
    (speakerId : String) (u : HistRecord) (now : Nat)
    (hfind : (hist speakerId).findIdx? (fun v => v.utteranceId == u.utteranceId) = none) :
    (updateTranslatedUtterancesMap hist speakerId u now) speakerId =
      validateList
        (if ((hist speakerId) ++
              [{ u with timestampKey := some now, lastUpdated := some now }]).length >
            Config.MAX_STORED_UTTERANCES then
          ((hist speakerId) ++
              [{ u with timestampKey := some now, lastUpdated := some now }]).drop
            (((hist speakerId) ++
              [{ u with timestampKey := some now, lastUpdated := some now }]).length -
              Config.MAX_STORED_UTTERANCES)
        else (hist speakerId) ++
          [{ u with timestampKey := some now, lastUpdated := some now }]) := by
  unfold updateTranslatedUtterancesMap
  dsimp only
  rw [if_pos rfl, hfind]

theorem updateMap_fresh_push {hist : String → List HistRecord} {speakerId : String}
    {u : HistRecord} {now : Nat} {uid : String}
    (hu : u.utteranceId = some uid) (huid : uid ≠ "")
    (hfresh : (hist speakerId).countP (fun r => r.utteranceId == u.utteranceId) = 0) :
    ((updateTranslatedUtterancesMap hist speakerId u now) speakerId).countP
        (fun r => r.utteranceId == u.utteranceId) = 1 ∧
    ∀ r ∈ (updateTranslatedUtterancesMap hist speakerId u now) speakerId,
      r.utteranceId = u.utteranceId →
        r = { u with timestampKey := some now, lastUpdated := some now } := by
  have hfind : (hist speakerId).findIdx?
      (fun v => v.utteranceId == u.utteranceId) = none := by
    rw [List.findIdx?_eq_none_iff]
    intro x hx
    simpa using List.countP_eq_zero.mp hfresh x hx
  rw [updateMap_at_self_push hist speakerId u now hfind]
  have hstid : ({ u with timestampKey := some now, lastUpdated := some now } : HistRecord).utteranceId = u.utteranceId := rfl
  constructor
  · rw [hu]
    have hfresh2 : (hist speakerId).countP
        (fun r => r.utteranceId == some uid) = 0 := by rw [← hu]; exact hfresh
    refine validateList_countP huid _ ?_
    refine cappedAppend_countP _ _ _ _ (by norm_num [Config.MAX_STORED_UTTERANCES]) hfresh2 ?_
    simp [hstid, hu]
  · intro r hr hrid
    rcases cappedAppend_mem (validateList_mem_subset hr) with h | h
    · exfalso
      have := List.countP_eq_zero.mp hfresh r h
      simp [hrid] at this
    · exact h

/-! ## Claim C6: segment rollover -/

/-- C6: when the finalize timer fires for a speaker whose accumulated
source text exceeds MAX_SPEECH_SEGMENT_LENGTH, finalizeSpeech writes
exactly one closed (active = false) record bearing the current
utteranceId into the history, and leaves the speaker in the active set
with a fresh open utterance that has empty text, the Continuing
placeholder, and a new time-derived utteranceId different from the old
one.  The freshness hypotheses say the current utteranceId is a real id
not already stored and the rollover timestamp string differs from it
(ids are millisecond timestamps; the finalize tick happens after
creation). -/
theorem c6_segment_rollover (s : ProcState) (speakerId : String) (now : Nat)
    (translateResult : String) (cu : Utterance)
    (hact : s.activeSpeakers speakerId = some cu)
    (hclr : s.isClearing = false)
    (hlong : cu.fullText.length > Config.MAX_SPEECH_SEGMENT_LENGTH)
    (hid : cu.utteranceId ≠ "")
    (hfresh : (s.translatedUtterances speakerId).countP
        (fun r => r.utteranceId == some cu.utteranceId) = 0)
    (hnewid : toString now ≠ cu.utteranceId) :
    ((finalizeSpeech s speakerId now translateResult).translatedUtterances
        speakerId).countP (fun r => r.utteranceId == some cu.utteranceId) = 1 ∧
    (∀ r ∈ (finalizeSpeech s speakerId now translateResult).translatedUtterances
        speakerId, r.utteranceId = some cu.utteranceId → r.active = false) ∧
    (finalizeSpeech s speakerId now translateResult).activeSpeakers speakerId =
      some { speaker := cu.speaker, fullText := "", lastTime := now,
             translatedText := continuingPlaceholder, utteranceId := toString now,
             active := true, avatar := cu.avatar } ∧
    toString now ≠ cu.utteranceId := by
  rw [finalizeSpeech_long_eq s speakerId now translateResult cu hact hclr hlong]
  dsimp only
  have hu : (finalizeRecord { cu with translatedText := translateResult }).utteranceId
      = some cu.utteranceId := rfl
  have hpush := @updateMap_fresh_push s.translatedUtterances speakerId
    (finalizeRecord { cu with translatedText := translateResult }) now
    cu.utteranceId hu hid hfresh
  refine ⟨hpush.1, ?_, ?_, hnewid⟩
  · intro r hr hrid
    rw [hpush.2 r hr hrid]
    rfl
  · rw [if_pos rfl]

/-- Witness for C6 at a concrete speaker with a 3001-character text. -/
theorem c6_segment_rollover_witness :
    ((finalizeSpeech
        (ProcState.mk
          (fun x => if x = "sp" then some (Utterance.mk "A"
            (String.mk (List.replicate 3001 'a')) 1 "hola" "u1" true none) else none)
          (fun _ => []) false)
        "sp" 5 "T").translatedUtterances "sp").countP
      (fun r => r.utteranceId == some "u1") = 1 ∧
    (finalizeSpeech
        (ProcState.mk
          (fun x => if x = "sp" then some (Utterance.mk "A"
            (String.mk (List.replicate 3001 'a')) 1 "hola" "u1" true none) else none)
          (fun _ => []) false)
        "sp" 5 "T").activeSpeakers "sp" =
      some (Utterance.mk "A" "" 5 continuingPlaceholder (toString 5) true none) := by
  have h := c6_segment_rollover
    (ProcState.mk
      (fun x => if x = "sp" then some (Utterance.mk "A"
        (String.mk (List.replicate 3001 'a')) 1 "hola" "u1" true none) else none)
      (fun _ => []) false)
    "sp" 5 "T"
    (Utterance.mk "A" (String.mk (List.replicate 3001 'a')) 1 "hola" "u1" true none)
    (by simp) rfl
    (by show (List.replicate 3001 'a').length > 3000
        rw [List.length_replicate]; omega)
    (by decide) (by simp) (by decide)
  exact ⟨h.1, h.2.2.1⟩

/-! ## Claim C7: finalization keeps placeholder utterances active -/

/-- C7: on finalization of an utterance within the length limit, the
speaker is removed from the active set exactly when the final
translated text is non-empty and not the Translating placeholder; when
the final text is still the placeholder the utterance stays in the
active set (carrying the final text) so a later update can improve it.
The final text is the awaited last translation when one was needed
(stored text empty or still the placeholder), else the stored text. -/
theorem c7_placeholder_keeps_speaker_active (s : ProcState) (speakerId : String)
    (now : Nat) (translateResult : String) (cu : Utterance)
    (hact : s.activeSpeakers speakerId = some cu)
    (hclr : s.isClearing = false)
    (hshort : ¬ cu.fullText.length > Config.MAX_SPEECH_SEGMENT_LENGTH) :
    ((finalizeSpeech s speakerId now translateResult).activeSpeakers speakerId = none ↔
      ((if cu.translatedText = "" ∨ cu.translatedText = translatingPlaceholder
          then translateResult else cu.translatedText) ≠ "" ∧
        (if cu.translatedText = "" ∨ cu.translatedText = translatingPlaceholder
          then translateResult else cu.translatedText) ≠ translatingPlaceholder)) ∧
    ((if cu.translatedText = "" ∨ cu.translatedText = translatingPlaceholder
        then translateResult else cu.translatedText) = translatingPlaceholder →
      (finalizeSpeech s speakerId now translateResult).activeSpeakers speakerId =
        some { cu with translatedText :=
          if cu.translatedText = "" ∨ cu.translatedText = translatingPlaceholder
            then translateResult else cu.translatedText }) := by
  rw [finalizeSpeech_short_eq s speakerId now translateResult cu hact hclr hshort]
  by_cases hup : cu.translatedText = "" ∨ cu.translatedText = translatingPlaceholder
  · simp only [if_pos hup]
    by_cases hrem : translateResult ≠ "" ∧ translateResult ≠ translatingPlaceholder
    · simp only [if_pos hrem]
      simp [hrem.1, hrem.2]
    · simp only [if_neg hrem]
      simp [hrem]
  · simp only [if_neg hup]
    by_cases hrem : cu.translatedText ≠ "" ∧ cu.translatedText ≠ translatingPlaceholder
    · simp only [if_pos hrem]
      simp [hrem.1, hrem.2]
    · simp only [if_neg hrem]
      simp [hrem]

/-- Witness for C7 at a concrete input: the final translation is still
the placeholder, so the speaker stays active. -/
theorem c7_placeholder_keeps_speaker_active_witness :
    ((finalizeSpeech
        (ProcState.mk
          (fun x => if x = "sp" then some (Utterance.mk "A" "hi" 1
            translatingPlaceholder "u1" true none) else none)
          (fun _ => []) false)
        "sp" 5 translatingPlaceholder).activeSpeakers "sp" = none ↔
      (translatingPlaceholder ≠ "" ∧
        translatingPlaceholder ≠ translatingPlaceholder)) ∧
    (finalizeSpeech
        (ProcState.mk
          (fun x => if x = "sp" then some (Utterance.mk "A" "hi" 1
            translatingPlaceholder "u1" true none) else none)
          (fun _ => []) false)
        "sp" 5 translatingPlaceholder).activeSpeakers "sp" =
      some (Utterance.mk "A" "hi" 1 translatingPlaceholder "u1" true none) := by
  have h := c7_placeholder_keeps_speaker_active
    (ProcState.mk
      (fun x => if x = "sp" then some (Utterance.mk "A" "hi" 1
        translatingPlaceholder "u1" true none) else none)
      (fun _ => []) false)
    "sp" 5 translatingPlaceholder
    (Utterance.mk "A" "hi" 1 translatingPlaceholder "u1" true none)
    (by simp) rfl
    (by show ¬ ("hi" : String).length > Config.MAX_SPEECH_SEGMENT_LENGTH
        decide)
  refine ⟨?_, ?_⟩
  · have h1 := h.1
    simpa using h1
  · have h2 := h.2 (by simp)
    simpa using h2

/-! ## Claim C9: continuation classification -/

/-- Counterexample to C9 as stated: with an empty stored text (the
state a segment rollover leaves behind) and the newly arrived text
"ab", the claim formula classifies a continuation (any string contains
the trivial 80-percent prefix of the empty string) but the code
classifies no continuation, because lines 217-236 run only under the
guard that both texts are non-empty. -/
theorem c9_continuation_counterexample :
    isContinuationOf "" "ab" = false ∧ claimContinuation "" "ab" = true := by
  decide

/-- C9 (amended): the new text is classified a continuation exactly
when both texts are non-empty and either text contains the
floor-rounded first 80 percent of the other or the first five words
after naive whitespace tokenization are equal; and the stored text is
kept unchanged exactly when the pair is a continuation with the new
text strictly shorter, otherwise the new text replaces it.  Both
classification and keep-rule are functions of the two texts alone, so
the decision is deterministic. -/
theorem c9_continuation_classifier (existingText text : String) :
    (isContinuationOf existingText text = true ↔
      (existingText ≠ "" ∧ text ≠ "" ∧ claimContinuation existingText text = true)) ∧
    updatedFullText existingText text =
      (if isContinuationOf existingText text = true ∧ text.length < existingText.length
        then existingText else text) := by
  constructor
  · unfold isContinuationOf claimContinuation
    by_cases h1 : existingText = "" <;> by_cases h2 : text = "" <;>
      simp [h1, h2]
  · unfold updatedFullText
    by_cases hc : isContinuationOf existingText text = true
    · by_cases hlt : text.length < existingText.length
      · simp [hc, hlt]
      · simp [hc, hlt]
    · have hcf : isContinuationOf existingText text = false := Bool.eq_false_iff.mpr hc
      rw [hcf]
      by_cases heq : existingText = text
      · subst heq
        simp
      · simp [heq]

/-! ## Claim C5: failure path never rejects -/

/-- C5: translateText is a total function (the JavaScript catch absorbs
every failure), and on any failing external call (fetchOutcome = none
covers timeout, transport error, non-success status and malformed
payload) a call that reached the external request clears the speaker's
in-flight marker, leaves the partial translation untouched, and
resolves to the existing truthy partial translation if there is one,
otherwise to the Translating placeholder. -/
theorem c5_failure_resolves_to_partial_or_placeholder (s : TransState)
    (speakerId text inputLang outputLang : String) (now : Nat)
    (hlen : ¬ text.length < 2)
    (hmiss : cacheFind s.translationCache (cacheKeyOf inputLang outputLang text) = none)
    (hsame : ¬(text = (s.lastTranslatedText speakerId).getD "" ∧
      optTruthy (s.partialTranslations speakerId) = true))
    (htime : now - s.lastProcessedTime speakerId ≥ Config.SUBTITLE_PROCESSING_INTERVAL)
    (hrate : ¬ now - s.lastApiRequestTime < Config.API_RATE_LIMIT)
    (hflight : s.translationInProgress speakerId = none) :
    (translateText s speakerId text inputLang outputLang now none).fetched = true ∧
    (translateText s speakerId text inputLang outputLang now none).state.translationInProgress
      speakerId = none ∧
    (translateText s speakerId text inputLang outputLang now none).output =
      optOrElse (s.partialTranslations speakerId) translatingPlaceholder ∧
    (translateText s speakerId text inputLang outputLang now none).state.partialTranslations
      speakerId = s.partialTranslations speakerId := by
  unfold translateText
  rw [if_neg hlen]
  dsimp only
  rw [hmiss]
  dsimp only
  rw [if_neg hsame]
  unfold hasTimePassedForTranslation
  rw [divergenceReset_lastProcessedTime, if_pos htime]
  dsimp only
  rw [divergenceReset_lastApiRequestTime, if_neg hrate]
  rw [divergenceReset_translationInProgress, hflight]
  rw [divergenceReset_partialTranslations]
  simp only [Option.isSome_none, Bool.false_eq_true, if_false]
  by_cases hpart : optTruthy (s.partialTranslations speakerId) = true
  · rw [if_pos hpart]
    refine ⟨rfl, by simp, ?_, rfl⟩
    show (s.partialTranslations speakerId).getD "" =
      optOrElse (s.partialTranslations speakerId) translatingPlaceholder
    unfold optOrElse
    rw [if_pos hpart]
    rcases hs : s.partialTranslations speakerId with _ | v
    · rw [hs] at hpart
      simp [optTruthy] at hpart
    · rfl
  · rw [if_neg hpart]
    refine ⟨rfl, by simp, ?_, rfl⟩
    show translatingPlaceholder =
      optOrElse (s.partialTranslations speakerId) translatingPlaceholder
    unfold optOrElse
    rw [if_neg hpart]

/-- Witness for C5 at a concrete failing call from the initial state:
the call resolves to the Translating placeholder with no marker left. -/
theorem c5_failure_resolves_witness :
    (translateText TransState.initial "sp" "hello" "en" "fr" 5000 none).fetched = true ∧
    (translateText TransState.initial "sp" "hello" "en" "fr" 5000 none).state.translationInProgress
      "sp" = none ∧
    (translateText TransState.initial "sp" "hello" "en" "fr" 5000 none).output =
      "Translating..." := by
  have h := c5_failure_resolves_to_partial_or_placeholder TransState.initial
    "sp" "hello" "en" "fr" 5000
    (by decide) rfl (by decide) (by decide) (by decide) rfl
  exact ⟨h.1, h.2.1, h.2.2.1⟩

/-! ## Claim C2: the in-flight gate -/

theorem hasTimePassed_eq_snd {s s' : TransState} {b : Bool} {spk : String} {now : Nat}
    (h : hasTimePassedForTranslation s spk now = (b, s')) :
    s'.translationInProgress = s.translationInProgress ∧
    s'.partialTranslations = s.partialTranslations ∧
    s'.lastApiRequestTime = s.lastApiRequestTime := by
  unfold hasTimePassedForTranslation at h
  split at h
  · cases h
    exact ⟨rfl, rfl, rfl⟩
  · cases h
    exact ⟨rfl, rfl, rfl⟩

theorem optOrElse_eq_getD {o : Option String} (h : optTruthy o = true) :
    o.getD "" = optOrElse o translatingPlaceholder := by
  unfold optOrElse
  rw [if_pos h]
  rcases o with _ | v
  · simp [optTruthy] at h
  · rfl

/-- Counterexample to C2 as stated: with a request in flight for the
speaker AND the current text sitting in the cache, the call returns the
cached translation (here "Bonjour"), which is neither the speaker's
current partial translation ("Salut") nor the Translating placeholder —
the cache lookup short-circuits before the in-flight gate.  No second
request is issued, so only the "returns the current partial translation
or the placeholder" part of the claim fails. -/
theorem c2_in_flight_counterexample :
    ((TransState.mk (fun x => if x = "sp" then some "t0" else none)
        [("en:fr:hello", "Bonjour")]
        (fun x => if x = "sp" then some "Salut" else none)
        0 (fun _ => none) (fun _ => 0) (fun _ => 0)
        (fun _ => none)).translationInProgress "sp").isSome = true ∧
    (TransState.mk (fun x => if x = "sp" then some "t0" else none)
        [("en:fr:hello", "Bonjour")]
        (fun x => if x = "sp" then some "Salut" else none)
        0 (fun _ => none) (fun _ => 0) (fun _ => 0)
        (fun _ => none)).partialTranslations "sp" = some "Salut" ∧
    (translateText (TransState.mk (fun x => if x = "sp" then some "t0" else none)
        [("en:fr:hello", "Bonjour")]
        (fun x => if x = "sp" then some "Salut" else none)
        0 (fun _ => none) (fun _ => 0) (fun _ => 0)
        (fun _ => none)) "sp" "hello" "en" "fr" 9999 none).fetched = false ∧
    (translateText (TransState.mk (fun x => if x = "sp" then some "t0" else none)
        [("en:fr:hello", "Bonjour")]
        (fun x => if x = "sp" then some "Salut" else none)
        0 (fun _ => none) (fun _ => 0) (fun _ => 0)
        (fun _ => none)) "sp" "hello" "en" "fr" 9999 none).output = "Bonjour" ∧
    (translateText (TransState.mk (fun x => if x = "sp" then some "t0" else none)
        [("en:fr:hello", "Bonjour")]
        (fun x => if x = "sp" then some "Salut" else none)
        0 (fun _ => none) (fun _ => 0) (fun _ => 0)
        (fun _ => none)) "sp" "hello" "en" "fr" 9999 none).output ≠ "Salut" ∧
    (translateText (TransState.mk (fun x => if x = "sp" then some "t0" else none)
        [("en:fr:hello", "Bonjour")]
        (fun x => if x = "sp" then some "Salut" else none)
        0 (fun _ => none) (fun _ => 0) (fun _ => 0)
        (fun _ => none)) "sp" "hello" "en" "fr" 9999 none).output ≠ translatingPlaceholder := by
  decide

set_option maxHeartbeats 1600000 in
/-- C2 (amended): for every speaker, at most one translation request is
outstanding at any time.  (1) While a request is in flight for the
speaker, no call issues a second external request; (2) a call that gets
past the trivial-text and cache short-circuits while a request is in
flight resolves to the speaker's current truthy partial translation or
the Translating placeholder (a cache hit or trivial text may instead
return the cached/unchanged value); (3) the in-flight marker is set
inside the call that issues the external request and is cleared exactly
once on its resumption whatever the outcome, so a call entered with no
marker never leaves one dangling. -/
theorem c2_in_flight_gate (s : TransState)
    (speakerId text inputLang outputLang : String) (now : Nat) (fo : Option String) :
    ((s.translationInProgress speakerId).isSome = true →
      (translateText s speakerId text inputLang outputLang now fo).fetched = false) ∧
    ((s.translationInProgress speakerId).isSome = true →
      ¬ text.length < 2 →
      cacheFind s.translationCache (cacheKeyOf inputLang outputLang text) = none →
      (translateText s speakerId text inputLang outputLang now fo).output =
        optOrElse (s.partialTranslations speakerId) translatingPlaceholder) ∧
    (s.translationInProgress speakerId = none →
      (translateText s speakerId text inputLang outputLang now fo).state.translationInProgress
        speakerId = none) := by
  refine ⟨?_, ?_, ?_⟩
  · intro hflight
    unfold translateText
    split
    · rfl
    · dsimp only
      split
      · rfl
      · split
        · rfl
        · split
          · rfl
          · rename_i b s2 heq
            split
            · rfl
            · split
              · rfl
              · rename_i hni
                exfalso
                apply hni
                rw [(hasTimePassed_eq_snd heq).1, divergenceReset_translationInProgress]
                exact hflight
  · intro hflight hlen hmiss
    unfold translateText
    rw [if_neg hlen]
    dsimp only
    rw [hmiss]
    dsimp only
    split
    · rename_i hsame
      exact optOrElse_eq_getD hsame.2
    · split
      · rename_i b s1x heq
        dsimp only
        rw [(hasTimePassed_eq_snd heq).2.1, divergenceReset_partialTranslations]
      · rename_i b s2 heq
        split
        · dsimp only
          rw [(hasTimePassed_eq_snd heq).2.1, divergenceReset_partialTranslations]
        · split
          · dsimp only
            rw [(hasTimePassed_eq_snd heq).2.1, divergenceReset_partialTranslations]
          · rename_i hni
            exfalso
            apply hni
            rw [(hasTimePassed_eq_snd heq).1, divergenceReset_translationInProgress]
            exact hflight
  · intro hnone
    unfold translateText
    split
    · exact hnone
    · dsimp only
      split
      · exact hnone
      · split
        · exact hnone
        · split
          · rename_i b s1x heq
            dsimp only
            rw [(hasTimePassed_eq_snd heq).1, divergenceReset_translationInProgress]
            exact hnone
          · rename_i b s2 heq
            split
            · dsimp only
              rw [(hasTimePassed_eq_snd heq).1, divergenceReset_translationInProgress]
              exact hnone
            · split
              · dsimp only
                rw [(hasTimePassed_eq_snd heq).1, divergenceReset_translationInProgress]
                exact hnone
              · split
                · split
                  · simp
                  · simp
                · split
                  · simp
                  · simp

/-- Witness for C2: applied once at an in-flight state (no second
request, partial returned) and once at an idle state (no dangling
marker after a failing call). -/
theorem c2_in_flight_gate_witness :
    (translateText (TransState.mk (fun x => if x = "sp" then some "t0" else none)
        [] (fun x => if x = "sp" then some "Salut" else none)
        0 (fun _ => none) (fun _ => 0) (fun _ => 0)
        (fun _ => none)) "sp" "hello" "en" "fr" 9999 none).fetched = false ∧
    (translateText (TransState.mk (fun x => if x = "sp" then some "t0" else none)
        [] (fun x => if x = "sp" then some "Salut" else none)
        0 (fun _ => none) (fun _ => 0) (fun _ => 0)
        (fun _ => none)) "sp" "hello" "en" "fr" 9999 none).output = "Salut" ∧
    (translateText TransState.initial "sp" "hello" "en" "fr" 9999 none).state.translationInProgress
      "sp" = none := by
  have h1 := c2_in_flight_gate (TransState.mk (fun x => if x = "sp" then some "t0" else none)
    [] (fun x => if x = "sp" then some "Salut" else none)
    0 (fun _ => none) (fun _ => 0) (fun _ => 0)
    (fun _ => none)) "sp" "hello" "en" "fr" 9999 none
  have h2 := c2_in_flight_gate TransState.initial "sp" "hello" "en" "fr" 9999 none
  refine ⟨h1.1 (by decide), ?_, h2.2.2 rfl⟩
  have h3 := h1.2.1 (by decide) (by decide) rfl
  rw [h3]
  decide

/-! ## Claim C3: the per-speaker minimum-interval gate -/

theorem hasTimePassed_false_eq {s s' : TransState} {spk : String} {now : Nat}
    (h : hasTimePassedForTranslation s spk now = (false, s')) : s' = s := by
  unfold hasTimePassedForTranslation at h
  split at h
  · cases h
  · cases h
    rfl

theorem hasTimePassed_true_eq {s s' : TransState} {spk : String} {now : Nat}
    (h : hasTimePassedForTranslation s spk now = (true, s')) :
    now - s.lastProcessedTime spk ≥ Config.SUBTITLE_PROCESSING_INTERVAL ∧
    s'.lastProcessedTime spk = now := by
  unfold hasTimePassedForTranslation at h
  split at h
  · rename_i hcond
    cases h
    exact ⟨hcond, by simp⟩
  · cases h

/-- Every translateText call either issues no external request and
leaves the speaker's processed timestamp unchanged, or has passed the
minimum-interval gate and stamped the timestamp with its own time. -/
theorem translateText_fetch_or (s : TransState)
    (speakerId text inputLang outputLang : String) (now : Nat) (fo : Option String) :
    ((translateText s speakerId text inputLang outputLang now fo).fetched = false ∧
      (translateText s speakerId text inputLang outputLang now fo).state.lastProcessedTime
        speakerId = s.lastProcessedTime speakerId) ∨
    ((translateText s speakerId text inputLang outputLang now fo).state.lastProcessedTime
        speakerId = now ∧
      now - s.lastProcessedTime speakerId ≥ Config.SUBTITLE_PROCESSING_INTERVAL) := by
  unfold translateText
  split
  · exact Or.inl ⟨rfl, rfl⟩
  · dsimp only
    split
    · exact Or.inl ⟨rfl, rfl⟩
    · split
      · exact Or.inl ⟨rfl, rfl⟩
      · split
        · rename_i b s1x heq
          rw [hasTimePassed_false_eq heq]
          exact Or.inl ⟨rfl, divergenceReset_lastProcessedTime s speakerId text ▸ rfl⟩
        · rename_i b s2 heq
          have ht := hasTimePassed_true_eq heq
          rw [divergenceReset_lastProcessedTime] at ht
          split
          · exact Or.inr ⟨ht.2, ht.1⟩
          · split
            · exact Or.inr ⟨ht.2, ht.1⟩
            · split
              · split
                · exact Or.inr ⟨ht.2, ht.1⟩
                · exact Or.inr ⟨ht.2, ht.1⟩
              · split
                · exact Or.inr ⟨ht.2, ht.1⟩
                · exact Or.inr ⟨ht.2, ht.1⟩

theorem runCalls_zero_of_ge {spk : String} {lo : Nat} :
    ∀ (cs : List CallSpec) (s : TransState),
      (∀ c ∈ cs, lo ≤ c.now ∧ c.now < lo + Config.SUBTITLE_PROCESSING_INTERVAL) →
      lo ≤ s.lastProcessedTime spk →
      (runCalls s spk cs).2 = 0 := by
  intro cs
  induction cs with
  | nil => intro s _ _; rfl
  | cons c cs ih =>
    intro s hw hlast
    have hc := hw c (List.mem_cons_self c cs)
    rcases translateText_fetch_or s spk c.text c.inputLang c.outputLang c.now
        c.fetchOutcome with ⟨hf, hl⟩ | ⟨hl, hge⟩
    · unfold runCalls
      dsimp only
      rw [hf]
      have hrest := ih (translateText s spk c.text c.inputLang c.outputLang c.now
        c.fetchOutcome).state (fun c' hc' => hw c' (List.mem_cons_of_mem _ hc'))
        (by rw [hl]; exact hlast)
      simpa using hrest
    · exfalso
      omega

theorem runCalls_le_one {spk : String} {lo : Nat} :
    ∀ (cs : List CallSpec) (s : TransState),
      (∀ c ∈ cs, lo ≤ c.now ∧ c.now < lo + Config.SUBTITLE_PROCESSING_INTERVAL) →
      (runCalls s spk cs).2 ≤ 1 := by
  intro cs
  induction cs with
  | nil => intro s _; exact Nat.zero_le 1
  | cons c cs ih =>
    intro s hw
    have hc := hw c (List.mem_cons_self c cs)
    rcases translateText_fetch_or s spk c.text c.inputLang c.outputLang c.now
        c.fetchOutcome with ⟨hf, hl⟩ | ⟨hl, hge⟩
    · unfold runCalls
      dsimp only
      rw [hf]
      have hrest := ih (translateText s spk c.text c.inputLang c.outputLang c.now
        c.fetchOutcome).state (fun c' hc' => hw c' (List.mem_cons_of_mem _ hc'))
      simpa using hrest
    · unfold runCalls
      dsimp only
      have hrest := runCalls_zero_of_ge cs (translateText s spk c.text c.inputLang
        c.outputLang c.now c.fetchOutcome).state
        (fun c' hc' => hw c' (List.mem_cons_of_mem _ hc'))
        (by rw [hl]; exact hc.1)
      rw [hrest]
      cases (translateText s spk c.text c.inputLang c.outputLang c.now c.fetchOutcome).fetched
      · simp
      · simp

theorem translateText_interval_blocked (s : TransState)
    (spk text il ol : String) (now : Nat) (fo : Option String)
    (hlen : ¬ text.length < 2)
    (hmiss : cacheFind s.translationCache (cacheKeyOf il ol text) = none)
    (hsame : ¬(text = (s.lastTranslatedText spk).getD "" ∧
      optTruthy (s.partialTranslations spk) = true))
    (hblock : ¬ now - s.lastProcessedTime spk ≥ Config.SUBTITLE_PROCESSING_INTERVAL) :
    (translateText s spk text il ol now fo).fetched = false ∧
    (translateText s spk text il ol now fo).output =
      optOrElse (s.partialTranslations spk) translatingPlaceholder ∧
    (translateText s spk text il ol now fo).state.translationInProgress =
      s.translationInProgress ∧
    (translateText s spk text il ol now fo).state.translationCache = s.translationCache ∧
    (translateText s spk text il ol now fo).state.partialTranslations =
      s.partialTranslations ∧
    (translateText s spk text il ol now fo).state.lastApiRequestTime =
      s.lastApiRequestTime ∧
    (translateText s spk text il ol now fo).state.lastTranslatedText =
      s.lastTranslatedText ∧
    (translateText s spk text il ol now fo).state.lastProcessedTime =
      s.lastProcessedTime := by
  have hgate : hasTimePassedForTranslation (divergenceReset s spk text) spk now =
      (false, divergenceReset s spk text) := by
    unfold hasTimePassedForTranslation
    rw [divergenceReset_lastProcessedTime]
    rw [if_neg hblock]
  unfold translateText
  rw [if_neg hlen]
  dsimp only
  rw [hmiss]
  dsimp only
  rw [if_neg hsame, hgate]
  dsimp only
  exact ⟨rfl, by rw [divergenceReset_partialTranslations],
    divergenceReset_translationInProgress s spk text,
    divergenceReset_translationCache s spk text,
    divergenceReset_partialTranslations s spk text,
    divergenceReset_lastApiRequestTime s spk text,
    divergenceReset_lastTranslatedText s spk text,
    divergenceReset_lastProcessedTime s spk text⟩

/-- Counterexample to C3 as stated: a call blocked by the per-speaker
minimum-interval gate (1500ms since epoch, last processed at 1000ms,
interval 2000ms) returns the placeholder and makes no network call, but
it does advance state: the divergence heuristic runs before the gate
and resets the speaker's loop-guard counter from 2 to 0 and deletes the
recorded last translation, because the new text "xyz" does not overlap
the previously translated "abcdef". -/
theorem c3_blocked_call_counterexample :
    (translateText (TransState.mk (fun _ => none) [] (fun _ => none) 0
        (fun x => if x = "sp" then some "abcdef" else none)
        (fun x => if x = "sp" then 1000 else 0)
        (fun x => if x = "sp" then 2 else 0)
        (fun x => if x = "sp" then some "Z" else none))
      "sp" "xyz" "en" "fr" 1500 none).fetched = false ∧
    (translateText (TransState.mk (fun _ => none) [] (fun _ => none) 0
        (fun x => if x = "sp" then some "abcdef" else none)
        (fun x => if x = "sp" then 1000 else 0)
        (fun x => if x = "sp" then 2 else 0)
        (fun x => if x = "sp" then some "Z" else none))
      "sp" "xyz" "en" "fr" 1500 none).output = translatingPlaceholder ∧
    (TransState.mk (fun _ => none) [] (fun _ => none) 0
        (fun x => if x = "sp" then some "abcdef" else none)
        (fun x => if x = "sp" then 1000 else 0)
        (fun x => if x = "sp" then 2 else 0)
        (fun x => if x = "sp" then some "Z" else none)).translationRepeatCount "sp" = 2 ∧
    (translateText (TransState.mk (fun _ => none) [] (fun _ => none) 0
        (fun x => if x = "sp" then some "abcdef" else none)
        (fun x => if x = "sp" then 1000 else 0)
        (fun x => if x = "sp" then 2 else 0)
        (fun x => if x = "sp" then some "Z" else none))
      "sp" "xyz" "en" "fr" 1500 none).state.translationRepeatCount "sp" = 0 ∧
    (translateText (TransState.mk (fun _ => none) [] (fun _ => none) 0
        (fun x => if x = "sp" then some "abcdef" else none)
        (fun x => if x = "sp" then 1000 else 0)
        (fun x => if x = "sp" then 2 else 0)
        (fun x => if x = "sp" then some "Z" else none))
      "sp" "xyz" "en" "fr" 1500 none).state.lastTranslationBySpeaker "sp" = none := by
  decide

/-- C3 (amended): (1) any sequence of caption-driven translateText
calls for one speaker whose timestamps all lie within one
minimum-processing-interval window issues at most one external
translation call; (2) a single call blocked by the per-speaker
minimum-interval gate returns the speaker's current truthy partial
translation or the Translating placeholder, makes no network call, and
advances none of the processed-timestamp, rate-limit, in-flight,
partial-translation, last-text or cache state — only the loop-guard
state may be reset by the divergence heuristic that runs before the
gate. -/
theorem c3_min_interval_gate (s : TransState) (spk : String) (lo : Nat)
    (cs : List CallSpec) (text il ol : String) (now : Nat) (fo : Option String) :
    ((∀ c ∈ cs, lo ≤ c.now ∧ c.now < lo + Config.SUBTITLE_PROCESSING_INTERVAL) →
      (runCalls s spk cs).2 ≤ 1) ∧
    (¬ text.length < 2 →
      cacheFind s.translationCache (cacheKeyOf il ol text) = none →
      ¬(text = (s.lastTranslatedText spk).getD "" ∧
        optTruthy (s.partialTranslations spk) = true) →
      ¬ now - s.lastProcessedTime spk ≥ Config.SUBTITLE_PROCESSING_INTERVAL →
      (translateText s spk text il ol now fo).fetched = false ∧
      (translateText s spk text il ol now fo).output =
        optOrElse (s.partialTranslations spk) translatingPlaceholder ∧
      (translateText s spk text il ol now fo).state.translationInProgress =
        s.translationInProgress ∧
      (translateText s spk text il ol now fo).state.translationCache =
        s.translationCache ∧
      (translateText s spk text il ol now fo).state.partialTranslations =
        s.partialTranslations ∧
      (translateText s spk text il ol now fo).state.lastApiRequestTime =
        s.lastApiRequestTime ∧
      (translateText s spk text il ol now fo).state.lastTranslatedText =
        s.lastTranslatedText ∧
      (translateText s spk text il ol now fo).state.lastProcessedTime =
        s.lastProcessedTime) :=
  ⟨fun hw => runCalls_le_one cs s hw,
   fun h1 h2 h3 h4 => translateText_interval_blocked s spk text il ol now fo h1 h2 h3 h4⟩

/-- Witness for C3: a two-call storm within one interval window issues
at most one request, and a blocked call is a no-op apart from the
placeholder output. -/
theorem c3_min_interval_gate_witness :
    (runCalls (TransState.mk (fun _ => none) [] (fun _ => none) 0
        (fun _ => none) (fun x => if x = "sp" then 1000 else 0)
        (fun _ => 0) (fun _ => none)) "sp"
      [CallSpec.mk "hello" "en" "fr" 1500 none,
       CallSpec.mk "hello w" "en" "fr" 1600 none]).2 ≤ 1 ∧
    (translateText (TransState.mk (fun _ => none) [] (fun _ => none) 0
        (fun _ => none) (fun x => if x = "sp" then 1000 else 0)
        (fun _ => 0) (fun _ => none))
      "sp" "hello" "en" "fr" 1500 none).fetched = false := by
  have h := c3_min_interval_gate (TransState.mk (fun _ => none) [] (fun _ => none) 0
    (fun _ => none) (fun x => if x = "sp" then 1000 else 0)
    (fun _ => 0) (fun _ => none)) "sp" 1000
    [CallSpec.mk "hello" "en" "fr" 1500 none,
     CallSpec.mk "hello w" "en" "fr" 1600 none]
    "hello" "en" "fr" 1500 none
  refine ⟨h.1 ?_, (h.2 (by decide) rfl (by decide) (by decide)).1⟩
  intro c hc
  simp only [List.mem_cons, List.not_mem_nil, or_false] at hc
  rcases hc with hc | hc
  · rw [hc]
    exact ⟨by norm_num, by norm_num [Config.SUBTITLE_PROCESSING_INTERVAL]⟩
  · rw [hc]
    exact ⟨by norm_num, by norm_num [Config.SUBTITLE_PROCESSING_INTERVAL]⟩

/-! ## Claim C4: cache round trip -/

theorem detect_mk_none (cnt : Nat) (t : String) :
    detectAndBreakTranslationLoop ⟨cnt, none⟩ t = (false, ⟨cnt, some t⟩) := by
  unfold detectAndBreakTranslationLoop
  rfl

theorem divergenceReset_lastBySpeaker_none {s : TransState} {spk : String}
    (text : String) (h : s.lastTranslationBySpeaker spk = none) :
    (divergenceReset s spk text).lastTranslationBySpeaker spk = none := by
  unfold divergenceReset resetLoopDetection TransState.setLoopState
  dsimp only
  split
  · simp [LoopState.initial]
  · exact h

theorem hasTimePassed_true_state {s s' : TransState} {spk : String} {now : Nat}
    (h : hasTimePassedForTranslation s spk now = (true, s')) :
    s' = { s with lastProcessedTime := fun x => if x = spk then now
      else s.lastProcessedTime x } := by
  unfold hasTimePassedForTranslation at h
  split at h
  · cases h
    rfl
  · cases h

/-- A successful external call (no loop detected because this speaker
has no recorded last translation) returns the fetched text and stores
it in the cache. -/
theorem translateText_success_fetch (s : TransState)
    (spk text il ol : String) (now : Nat) (T : String)
    (hlen : ¬ text.length < 2)
    (hmiss : cacheFind s.translationCache (cacheKeyOf il ol text) = none)
    (hsame : ¬(text = (s.lastTranslatedText spk).getD "" ∧
      optTruthy (s.partialTranslations spk) = true))
    (htime : now - s.lastProcessedTime spk ≥ Config.SUBTITLE_PROCESSING_INTERVAL)
    (hrate : ¬ now - s.lastApiRequestTime < Config.API_RATE_LIMIT)
    (hflight : s.translationInProgress spk = none)
    (hnl : s.lastTranslationBySpeaker spk = none) :
    (translateText s spk text il ol now (some T)).fetched = true ∧
    (translateText s spk text il ol now (some T)).output = T ∧
    (translateText s spk text il ol now (some T)).state.translationCache =
      cacheEvict (cacheSet s.translationCache (cacheKeyOf il ol text) T) := by
  unfold translateText
  rw [if_neg hlen]
  dsimp only
  rw [hmiss]
  dsimp only
  rw [if_neg hsame]
  unfold hasTimePassedForTranslation
  rw [divergenceReset_lastProcessedTime, if_pos htime]
  dsimp only
  rw [divergenceReset_lastApiRequestTime, if_neg hrate]
  rw [divergenceReset_translationInProgress, hflight]
  simp only [Option.isSome_none, Bool.false_eq_true, if_false]
  dsimp only [TransState.loopState]
  rw [divergenceReset_lastBySpeaker_none text hnl]
  rw [detect_mk_none]
  dsimp only
  rw [divergenceReset_translationCache]
  exact ⟨rfl, rfl, rfl⟩

theorem cacheSet_length_of_miss {c : List (String × String)} {k : String}
    (h : cacheFind c k = none) (v : String) :
    (cacheSet c k v).length = c.length + 1 := by
  induction c with
  | nil => rfl
  | cons p rest ih =>
    unfold cacheFind at h
    rcases p with ⟨pk, pv⟩
    by_cases hk : pk = k
    · rw [if_pos hk] at h
      cases h
    · rw [if_neg hk] at h
      unfold cacheSet
      rw [if_neg hk]
      simp [ih h]

theorem cacheEvict_eq_of_le {c : List (String × String)} (h : c.length ≤ 500) :
    cacheEvict c = c := by
  unfold cacheEvict
  rw [if_neg (by omega)]

theorem cacheFind_cacheSet_self (c : List (String × String)) (k v : String) :
    cacheFind (cacheSet c k v) k = some v := by
  induction c with
  | nil =>
    unfold cacheSet cacheFind
    rw [if_pos rfl]
  | cons p rest ih =>
    rcases p with ⟨pk, pv⟩
    by_cases hk : pk = k
    · unfold cacheSet
      rw [if_pos hk]
      unfold cacheFind
      rw [if_pos hk]
    · unfold cacheSet
      rw [if_neg hk]
      unfold cacheFind
      rw [if_neg hk]
      exact ih

theorem translateText_cache_hit (s : TransState)
    (spk text il ol : String) (now : Nat) (fo : Option String) {c : String}
    (hlen : ¬ text.length < 2)
    (hhit : cacheFind s.translationCache (cacheKeyOf il ol text) = some c) :
    translateText s spk text il ol now fo = ⟨c, s, false⟩ := by
  unfold translateText
  rw [if_neg hlen]
  dsimp only
  rw [hhit]

/-! ## The fetching paths of translateText -/

theorem detect_same_ok (cnt : Nat) {T : String} (hT : T ≠ "")
    (hlt : ¬ cnt + 1 ≥ MAX_REPEAT_COUNT) :
    detectAndBreakTranslationLoop ⟨cnt, some T⟩ T = (false, ⟨cnt + 1, some T⟩) := by
  unfold detectAndBreakTranslationLoop
  have ht : optTruthy (some T) = true := by simp [optTruthy, hT]
  rw [ht]
  dsimp only
  rw [if_pos rfl, if_pos rfl, if_neg hlt]

theorem detect_same_loop (cnt : Nat) {T : String} (hT : T ≠ "")
    (hge : cnt + 1 ≥ MAX_REPEAT_COUNT) :
    detectAndBreakTranslationLoop ⟨cnt, some T⟩ T = (true, ⟨cnt + 1, some T⟩) := by
  unfold detectAndBreakTranslationLoop
  have ht : optTruthy (some T) = true := by simp [optTruthy, hT]
  rw [ht]
  dsimp only
  rw [if_pos rfl, if_pos rfl, if_pos hge]

theorem detect_distinct_resets (cnt : Nat) {last Tx : String} (hl : last ≠ "")
    (hne : Tx ≠ last) :
    detectAndBreakTranslationLoop ⟨cnt, some last⟩ Tx = (false, ⟨0, some Tx⟩) := by
  unfold detectAndBreakTranslationLoop
  have ht : optTruthy (some last) = true := by simp [optTruthy, hl]
  have hns : ¬(some last = some Tx) := fun hc => hne (Option.some.inj hc).symm
  rw [ht]
  dsimp only
  rw [if_pos rfl, if_neg hns]

theorem divergenceReset_id_of_includes {s : TransState} {spk text : String}
    (h : strIncludes text ((s.lastTranslatedText spk).getD "") = true) :
    divergenceReset s spk text = s := by
  unfold divergenceReset
  dsimp only
  rw [if_neg (fun hc => by
    have := hc.2.2.1
    exact this h)]

theorem translateText_fetch_success (s : TransState)
    (spk text il ol : String) (now : Nat) (T : String) (ls2 : LoopState)
    (hlen : ¬ text.length < 2)
    (hmiss : cacheFind s.translationCache (cacheKeyOf il ol text) = none)
    (hsame : ¬(text = (s.lastTranslatedText spk).getD "" ∧
      optTruthy (s.partialTranslations spk) = true))
    (htime : now - s.lastProcessedTime spk ≥ Config.SUBTITLE_PROCESSING_INTERVAL)
    (hrate : ¬ now - s.lastApiRequestTime < Config.API_RATE_LIMIT)
    (hflight : s.translationInProgress spk = none)
    (hdet : detectAndBreakTranslationLoop
      ⟨(divergenceReset s spk text).translationRepeatCount spk,
       (divergenceReset s spk text).lastTranslationBySpeaker spk⟩ T = (false, ls2)) :
    (translateText s spk text il ol now (some T)).output = T ∧
    (translateText s spk text il ol now (some T)).fetched = true ∧
    (translateText s spk text il ol now (some T)).state.translationInProgress spk = none ∧
    (translateText s spk text il ol now (some T)).state.partialTranslations spk = some T ∧
    (translateText s spk text il ol now (some T)).state.lastTranslatedText spk = some text ∧
    (translateText s spk text il ol now (some T)).state.lastProcessedTime spk = now ∧
    (translateText s spk text il ol now (some T)).state.lastApiRequestTime = now ∧
    (translateText s spk text il ol now (some T)).state.translationCache =
      cacheEvict (cacheSet s.translationCache (cacheKeyOf il ol text) T) ∧
    (translateText s spk text il ol now (some T)).state.translationRepeatCount spk =
      ls2.repeatCount ∧
    (translateText s spk text il ol now (some T)).state.lastTranslationBySpeaker spk =
      ls2.lastTranslation := by
  unfold translateText
  rw [if_neg hlen]
  dsimp only
  rw [hmiss]
  dsimp only
  rw [if_neg hsame]
  unfold hasTimePassedForTranslation
  rw [divergenceReset_lastProcessedTime, if_pos htime]
  dsimp only
  rw [divergenceReset_lastApiRequestTime, if_neg hrate]
  rw [divergenceReset_translationInProgress, hflight]
  simp only [Option.isSome_none, Bool.false_eq_true, if_false]
  dsimp only [TransState.loopState]
  rw [hdet]
  dsimp only [TransState.setLoopState]
  rw [divergenceReset_translationCache]
  refine ⟨rfl, rfl, by simp, by simp, by simp, by simp, rfl, rfl, by simp, by simp⟩

theorem translateText_fetch_loop (s : TransState)
    (spk text il ol : String) (now : Nat) (T : String) (ls2 : LoopState)
    (hlen : ¬ text.length < 2)
    (hmiss : cacheFind s.translationCache (cacheKeyOf il ol text) = none)
    (hsame : ¬(text = (s.lastTranslatedText spk).getD "" ∧
      optTruthy (s.partialTranslations spk) = true))
    (htime : now - s.lastProcessedTime spk ≥ Config.SUBTITLE_PROCESSING_INTERVAL)
    (hrate : ¬ now - s.lastApiRequestTime < Config.API_RATE_LIMIT)
    (hflight : s.translationInProgress spk = none)
    (hdet : detectAndBreakTranslationLoop
      ⟨(divergenceReset s spk text).translationRepeatCount spk,
       (divergenceReset s spk text).lastTranslationBySpeaker spk⟩ T = (true, ls2)) :
    (translateText s spk text il ol now (some T)).output = loopBreakMessage ∧
    (translateText s spk text il ol now (some T)).fetched = true ∧
    (translateText s spk text il ol now (some T)).state.translationInProgress spk = none ∧
    (translateText s spk text il ol now (some T)).state.partialTranslations spk = none ∧
    (translateText s spk text il ol now (some T)).state.lastTranslatedText spk = none ∧
    (translateText s spk text il ol now (some T)).state.lastProcessedTime spk = now ∧
    (translateText s spk text il ol now (some T)).state.lastApiRequestTime = now ∧
    (translateText s spk text il ol now (some T)).state.translationCache =
      cacheSet s.translationCache (cacheKeyOf il ol text) T ∧
    (translateText s spk text il ol now (some T)).state.translationRepeatCount spk =
      ls2.repeatCount ∧
    (translateText s spk text il ol now (some T)).state.lastTranslationBySpeaker spk =
      ls2.lastTranslation := by
  unfold translateText
  rw [if_neg hlen]
  dsimp only
  rw [hmiss]
  dsimp only
  rw [if_neg hsame]
  unfold hasTimePassedForTranslation
  rw [divergenceReset_lastProcessedTime, if_pos htime]
  dsimp only
  rw [divergenceReset_lastApiRequestTime, if_neg hrate]
  rw [divergenceReset_translationInProgress, hflight]
  simp only [Option.isSome_none, Bool.false_eq_true, if_false]
  dsimp only [TransState.loopState]
  rw [hdet]
  dsimp only [TransState.setLoopState]
  rw [divergenceReset_translationCache]
  refine ⟨rfl, rfl, by simp, by simp, by simp, by simp, rfl, rfl, by simp, by simp⟩

theorem divergenceReset_id_of_prev_empty {s : TransState} {spk : String}
    (text : String) (h : (s.lastTranslatedText spk).getD "" = "") :
    divergenceReset s spk text = s := by
  unfold divergenceReset
  dsimp only
  rw [if_neg (fun hc => hc.1 h)]

theorem resetLoopDetection_repeatCount (s : TransState) (spk : String) :
    (resetLoopDetection s spk).translationRepeatCount spk = 0 := by
  simp [resetLoopDetection, TransState.setLoopState, LoopState.initial]

theorem resetLoopDetection_lastBySpeaker (s : TransState) (spk : String) :
    (resetLoopDetection s spk).lastTranslationBySpeaker spk = none := by
  simp [resetLoopDetection, TransState.setLoopState, LoopState.initial]

/-- Counterexample to C4 as stated: from a state where the speaker's
loop counter is at 2 with last emitted translation "Bonjour", a first
call whose transport returns "Bonjour" caches it but trips the loop
guard and resolves to the loop placeholder, while the second identical
call returns the cached "Bonjour" — the first call resolved and wrote
its result to the cache, yet the two calls return different strings.
No second external call is made. -/
theorem c4_cache_round_trip_counterexample :
    (translateText (TransState.mk (fun _ => none) [] (fun _ => none) 0
        (fun _ => none) (fun _ => 0)
        (fun x => if x = "sp" then 2 else 0)
        (fun x => if x = "sp" then some "Bonjour" else none))
      "sp" "hello" "en" "fr" 5000 (some "Bonjour")).output = loopBreakMessage ∧
    (translateText (TransState.mk (fun _ => none) [] (fun _ => none) 0
        (fun _ => none) (fun _ => 0)
        (fun x => if x = "sp" then 2 else 0)
        (fun x => if x = "sp" then some "Bonjour" else none))
      "sp" "hello" "en" "fr" 5000 (some "Bonjour")).fetched = true ∧
    (translateText
      (translateText (TransState.mk (fun _ => none) [] (fun _ => none) 0
          (fun _ => none) (fun _ => 0)
          (fun x => if x = "sp" then 2 else 0)
          (fun x => if x = "sp" then some "Bonjour" else none))
        "sp" "hello" "en" "fr" 5000 (some "Bonjour")).state
      "sp" "hello" "en" "fr" 9000 none).output = "Bonjour" ∧
    (translateText
      (translateText (TransState.mk (fun _ => none) [] (fun _ => none) 0
          (fun _ => none) (fun _ => 0)
          (fun x => if x = "sp" then 2 else 0)
          (fun x => if x = "sp" then some "Bonjour" else none))
        "sp" "hello" "en" "fr" 5000 (some "Bonjour")).state
      "sp" "hello" "en" "fr" 9000 none).fetched = false ∧
    loopBreakMessage ≠ "Bonjour" := by
  decide

/-- C4 (amended): calling translateText twice with identical
(speakerId, text, inputLang, outputLang), where the first call passes
every gate, fetches T successfully and detects no loop, and the second
call happens after the first resolved: the first call returns T and
caches it, the second call hits the cache, issues no external call,
returns the same string T, and leaves the whole module state unchanged
— in particular it consumes neither the global rate limit nor the
per-speaker interval.  When the first call instead trips the loop
guard, it resolves to the loop placeholder while the second call
returns the cached translation (see the counterexample). -/
theorem c4_cache_round_trip (s : TransState)
    (spk text il ol : String) (now₁ now₂ : Nat) (T : String) (fo₂ : Option String)
    (hlen : ¬ text.length < 2)
    (hmiss : cacheFind s.translationCache (cacheKeyOf il ol text) = none)
    (hsame : ¬(text = (s.lastTranslatedText spk).getD "" ∧
      optTruthy (s.partialTranslations spk) = true))
    (htime : now₁ - s.lastProcessedTime spk ≥ Config.SUBTITLE_PROCESSING_INTERVAL)
    (hrate : ¬ now₁ - s.lastApiRequestTime < Config.API_RATE_LIMIT)
    (hflight : s.translationInProgress spk = none)
    (hnoloop : (detectAndBreakTranslationLoop
      ⟨(divergenceReset s spk text).translationRepeatCount spk,
       (divergenceReset s spk text).lastTranslationBySpeaker spk⟩ T).1 = false)
    (hsize : s.translationCache.length < 500) :
    (translateText s spk text il ol now₁ (some T)).fetched = true ∧
    (translateText s spk text il ol now₁ (some T)).output = T ∧
    (translateText (translateText s spk text il ol now₁ (some T)).state
      spk text il ol now₂ fo₂).fetched = false ∧
    (translateText (translateText s spk text il ol now₁ (some T)).state
      spk text il ol now₂ fo₂).output = T ∧
    (translateText (translateText s spk text il ol now₁ (some T)).state
      spk text il ol now₂ fo₂).state =
      (translateText s spk text il ol now₁ (some T)).state := by
  have hdet : detectAndBreakTranslationLoop
      ⟨(divergenceReset s spk text).translationRepeatCount spk,
       (divergenceReset s spk text).lastTranslationBySpeaker spk⟩ T =
      (false, (detectAndBreakTranslationLoop
        ⟨(divergenceReset s spk text).translationRepeatCount spk,
         (divergenceReset s spk text).lastTranslationBySpeaker spk⟩ T).2) := by
    rw [← hnoloop]
  obtain ⟨ho, hf, _, _, _, _, _, hcache, _, _⟩ :=
    translateText_fetch_success s spk text il ol now₁ T _
      hlen hmiss hsame htime hrate hflight hdet
  have hevict : cacheEvict (cacheSet s.translationCache (cacheKeyOf il ol text) T) =
      cacheSet s.translationCache (cacheKeyOf il ol text) T :=
    cacheEvict_eq_of_le (by rw [cacheSet_length_of_miss hmiss]; omega)
  have hhit : cacheFind
      (translateText s spk text il ol now₁ (some T)).state.translationCache
      (cacheKeyOf il ol text) = some T := by
    rw [hcache, hevict]
    exact cacheFind_cacheSet_self s.translationCache (cacheKeyOf il ol text) T
  have hr2 := translateText_cache_hit
    (translateText s spk text il ol now₁ (some T)).state
    spk text il ol now₂ fo₂ hlen hhit
  exact ⟨hf, ho, by rw [hr2], by rw [hr2], by rw [hr2]⟩

/-- Witness for C4 from the initial state with a fetched translation
"Bonjour". -/
theorem c4_cache_round_trip_witness :
    (translateText TransState.initial "sp" "hello" "en" "fr" 5000
      (some "Bonjour")).output = "Bonjour" ∧
    (translateText (translateText TransState.initial "sp" "hello" "en" "fr" 5000
        (some "Bonjour")).state "sp" "hello" "en" "fr" 9000 none).output = "Bonjour" ∧
    (translateText (translateText TransState.initial "sp" "hello" "en" "fr" 5000
        (some "Bonjour")).state "sp" "hello" "en" "fr" 9000 none).fetched = false := by
  have h := c4_cache_round_trip TransState.initial "sp" "hello" "en" "fr" 5000 9000
    "Bonjour" none (by decide) rfl (by decide) (by decide) (by decide) rfl
    (by decide) (by decide)
  exact ⟨h.2.1, h.2.2.2.1, h.2.2.1⟩

/-! ## Claim C1: the loop guard -/

/-- Counterexample to C1 as stated: the transport returns the identical
string "T" three times consecutively for speaker "s", yet the third
call still emits "T" — not the loop-break placeholder — and still
issues an external fetch.  The guard increments its counter only on a
repeat of an already recorded translation, so it reaches the threshold
of 3 on the fourth consecutive identical receipt, not the third. -/
theorem c1_loop_guard_counterexample :
    (c1Call3 "T").output = "T" ∧
    (c1Call3 "T").output ≠ loopBreakMessage ∧
    (c1Call3 "T").fetched = true := by decide

set_option maxHeartbeats 4000000 in
/-- C1 (amended): if the external transport returns the same translated
string for one speaker on four consecutive calls, the first three are
served normally and the fourth emits the loop-break placeholder while
the speaker's in-flight and partial-translation state is discarded; the
scheduled cooldown reset clears the repeat counter and the recorded
last translation, after which a subsequent distinct translation is
accepted and served normally; and whatever the repeat count, any
received translation different from the recorded (truthy) last one is
accepted without flagging a loop and resets the repeat counter to
zero. -/
theorem c1_loop_guard (T Tn : String) (hT : T ≠ "") (hTn : Tn ≠ T) :
    (c1Call1 T).output = T ∧
    (c1Call2 T).output = T ∧
    (c1Call3 T).output = T ∧
    (c1Call4 T).output = loopBreakMessage ∧
    (c1Call4 T).state.translationInProgress "s" = none ∧
    (c1Call4 T).state.partialTranslations "s" = none ∧
    (resetLoopDetection (c1Call4 T).state "s").translationRepeatCount "s" = 0 ∧
    (resetLoopDetection (c1Call4 T).state "s").lastTranslationBySpeaker "s" = none ∧
    (c1Call5 T Tn).output = Tn ∧
    (c1Call5 T Tn).fetched = true ∧
    (∀ (cnt : Nat) (last Tx : String), last ≠ "" → Tx ≠ last →
      detectAndBreakTranslationLoop ⟨cnt, some last⟩ Tx = (false, ⟨0, some Tx⟩)) := by
  simp only [c1Call1, c1Call2, c1Call3, c1Call4, c1Call5]
  -- call 1
  have hdiv1 : divergenceReset TransState.initial "s" "aa" = TransState.initial :=
    divergenceReset_id_of_prev_empty _ rfl
  have hdet1 : detectAndBreakTranslationLoop
      ⟨(divergenceReset TransState.initial "s" "aa").translationRepeatCount "s",
       (divergenceReset TransState.initial "s" "aa").lastTranslationBySpeaker "s"⟩ T =
      (false, ⟨0, some T⟩) := by
    rw [hdiv1]
    exact detect_mk_none 0 T
  obtain ⟨o1, f1, ip1, pt1, lt1, lp1, la1, tc1, rc1, lb1⟩ :=
    translateText_fetch_success TransState.initial "s" "aa" "en" "fr" 2000 T ⟨0, some T⟩
      (by decide) rfl (by decide) (by decide) (by decide) rfl hdet1
  set S1 := (translateText TransState.initial "s" "aa" "en" "fr" 2000 (some T)).state with hS1
  have tc1x : S1.translationCache = [("en:fr:aa", T)] := by
    rw [tc1]
    rfl
  -- call 2
  have hsame2 : ¬("aab" = (S1.lastTranslatedText "s").getD "" ∧
      optTruthy (S1.partialTranslations "s") = true) := by
    rw [lt1]
    intro hc
    exact absurd hc.1 (by decide)
  have hdiv2 : divergenceReset S1 "s" "aab" = S1 :=
    divergenceReset_id_of_includes (by rw [lt1]; decide)
  have hdet2 : detectAndBreakTranslationLoop
      ⟨(divergenceReset S1 "s" "aab").translationRepeatCount "s",
       (divergenceReset S1 "s" "aab").lastTranslationBySpeaker "s"⟩ T =
      (false, ⟨1, some T⟩) := by
    rw [hdiv2, rc1, lb1]
    exact detect_same_ok 0 hT (by decide)
  obtain ⟨o2, f2, ip2, pt2, lt2, lp2, la2, tc2, rc2, lb2⟩ :=
    translateText_fetch_success S1 "s" "aab" "en" "fr" 4500 T ⟨1, some T⟩
      (by decide) (by rw [tc1x]; rfl) hsame2 (by rw [lp1]; decide)
      (by rw [la1]; decide) ip1 hdet2
  set S2 := (translateText S1 "s" "aab" "en" "fr" 4500 (some T)).state with hS2
  have tc2x : S2.translationCache = [("en:fr:aa", T), ("en:fr:aab", T)] := by
    rw [tc2, tc1x]
    rfl
  -- call 3
  have hsame3 : ¬("aabc" = (S2.lastTranslatedText "s").getD "" ∧
      optTruthy (S2.partialTranslations "s") = true) := by
    rw [lt2]
    intro hc
    exact absurd hc.1 (by decide)
  have hdiv3 : divergenceReset S2 "s" "aabc" = S2 :=
    divergenceReset_id_of_includes (by rw [lt2]; decide)
  have hdet3 : detectAndBreakTranslationLoop
      ⟨(divergenceReset S2 "s" "aabc").translationRepeatCount "s",
       (divergenceReset S2 "s" "aabc").lastTranslationBySpeaker "s"⟩ T =
      (false, ⟨2, some T⟩) := by
    rw [hdiv3, rc2, lb2]
    exact detect_same_ok 1 hT (by decide)
  obtain ⟨o3, f3, ip3, pt3, lt3, lp3, la3, tc3, rc3, lb3⟩ :=
    translateText_fetch_success S2 "s" "aabc" "en" "fr" 7000 T ⟨2, some T⟩
      (by decide) (by rw [tc2x]; rfl) hsame3 (by rw [lp2]; decide)
      (by rw [la2]; decide) ip2 hdet3
  set S3 := (translateText S2 "s" "aabc" "en" "fr" 7000 (some T)).state with hS3
  have tc3x : S3.translationCache =
      [("en:fr:aa", T), ("en:fr:aab", T), ("en:fr:aabc", T)] := by
    rw [tc3, tc2x]
    rfl
  -- call 4: the loop guard fires
  have hsame4 : ¬("aabcd" = (S3.lastTranslatedText "s").getD "" ∧
      optTruthy (S3.partialTranslations "s") = true) := by
    rw [lt3]
    intro hc
    exact absurd hc.1 (by decide)
  have hdiv4 : divergenceReset S3 "s" "aabcd" = S3 :=
    divergenceReset_id_of_includes (by rw [lt3]; decide)
  have hdet4 : detectAndBreakTranslationLoop
      ⟨(divergenceReset S3 "s" "aabcd").translationRepeatCount "s",
       (divergenceReset S3 "s" "aabcd").lastTranslationBySpeaker "s"⟩ T =
      (true, ⟨3, some T⟩) := by
    rw [hdiv4, rc3, lb3]
    exact detect_same_loop 2 hT (by decide)
  obtain ⟨o4, f4, ip4, pt4, lt4, lp4, la4, tc4, rc4, lb4⟩ :=
    translateText_fetch_loop S3 "s" "aabcd" "en" "fr" 9500 T ⟨3, some T⟩
      (by decide) (by rw [tc3x]; rfl) hsame4 (by rw [lp3]; decide)
      (by rw [la3]; decide) ip3 hdet4
  set S4 := (translateText S3 "s" "aabcd" "en" "fr" 9500 (some T)).state with hS4
  have tc4x : S4.translationCache =
      [("en:fr:aa", T), ("en:fr:aab", T), ("en:fr:aabc", T), ("en:fr:aabcd", T)] := by
    rw [tc4, tc3x]
    rfl
  -- cooldown reset
  set S5 := resetLoopDetection S4 "s" with hS5
  have rc5 : S5.translationRepeatCount "s" = 0 := resetLoopDetection_repeatCount S4 "s"
  have lb5 : S5.lastTranslationBySpeaker "s" = none :=
    resetLoopDetection_lastBySpeaker S4 "s"
  have lt5 : S5.lastTranslatedText "s" = none := by
    rw [show S5.lastTranslatedText = S4.lastTranslatedText from rfl, lt4]
  have pt5 : S5.partialTranslations "s" = none := by
    rw [show S5.partialTranslations = S4.partialTranslations from rfl, pt4]
  have ip5 : S5.translationInProgress "s" = none := by
    rw [show S5.translationInProgress = S4.translationInProgress from rfl, ip4]
  have lp5 : S5.lastProcessedTime "s" = 9500 := by
    rw [show S5.lastProcessedTime = S4.lastProcessedTime from rfl, lp4]
  have la5 : S5.lastApiRequestTime = 9500 := by
    rw [show S5.lastApiRequestTime = S4.lastApiRequestTime from rfl, la4]
  have tc5 : S5.translationCache =
      [("en:fr:aa", T), ("en:fr:aab", T), ("en:fr:aabc", T), ("en:fr:aabcd", T)] := by
    rw [show S5.translationCache = S4.translationCache from rfl, tc4x]
  -- call 5: a distinct translation is accepted normally after the reset
  have hsame5 : ¬("aabcde" = (S5.lastTranslatedText "s").getD "" ∧
      optTruthy (S5.partialTranslations "s") = true) := by
    rw [lt5]
    intro hc
    exact absurd hc.1 (by decide)
  have hdiv5 : divergenceReset S5 "s" "aabcde" = S5 :=
    divergenceReset_id_of_prev_empty _ (by rw [lt5]; rfl)
  have hdet5 : detectAndBreakTranslationLoop
      ⟨(divergenceReset S5 "s" "aabcde").translationRepeatCount "s",
       (divergenceReset S5 "s" "aabcde").lastTranslationBySpeaker "s"⟩ Tn =
      (false, ⟨0, some Tn⟩) := by
    rw [hdiv5, rc5, lb5]
    exact detect_mk_none 0 Tn
  obtain ⟨o5, f5, ip5b, pt5b, lt5b, lp5b, la5b, tc5b, rc5b, lb5b⟩ :=
    translateText_fetch_success S5 "s" "aabcde" "en" "fr" 12000 Tn ⟨0, some Tn⟩
      (by decide) (by rw [tc5]; rfl) hsame5 (by rw [lp5]; decide)
      (by rw [la5]; decide) ip5 hdet5
  exact ⟨o1, o2, o3, o4, ip4, pt4, rc5, lb5, o5, f5,
    fun cnt last Tx hl hne => detect_distinct_resets cnt hl hne⟩

/-- Witness for C1 at the concrete transport answers "X" and "Y". -/
theorem c1_loop_guard_witness :
    (c1Call4 "X").output = loopBreakMessage ∧ (c1Call5 "X" "Y").output = "Y" := by
  have h := c1_loop_guard "X" "Y" (by decide) (by decide)
  exact ⟨h.2.2.2.1, h.2.2.2.2.2.2.2.2.1⟩
